import Mathlib

/-!
Shallow embedding of the conversation & messaging subsystem of the
CronoAPI repository (models in `src/models/Message.js`, route handlers in
`src/routes/messages.js`, `src/routes/chat.js`, `src/routes/users.js`).

JavaScript strings are modelled as `List Char` (lists of UTF-16 units),
MongoDB ObjectIds and timestamps as `Nat`, and the persisted collections
as lists of records.  Mongoose `save` runs the schema pre-save hooks and
is modelled as an explicit function; `updateMany` / `findByIdAndUpdate`
bypass document middleware and are modelled as plain store updates, as in
Mongoose.  `isModified` on a path assigned by a handler is true exactly
when the assigned value differs from the stored one (Mongoose dirty
tracking compares values).
-/

/-- `messageType` enum of `messageSchema`. -/
inductive MessageType
  | text
  | image
  | file
  | system
deriving Repr, DecidableEq

/-- `deliveryStatus` enum of `messageSchema`. -/
inductive DeliveryStatus
  | sent
  | delivered
  | read
deriving Repr, DecidableEq

/-- `role` of a user (`userSchema` is referenced by the routes via
`req.user.role`; only the values the handlers test are needed). -/
inductive Role
  | user
  | support
  | admin
deriving Repr, DecidableEq

/-- One entry of `messageSchema.readBy`. -/
structure ReadReceipt where
  userId : Nat
  readAt : Nat
deriving Repr, DecidableEq

/-- One entry of `messageSchema.reactions`. -/
structure Reaction where
  emoji : String
  users : List Nat
  count : Nat
deriving Repr, DecidableEq

/-- One entry of `messageSchema.attachments`. -/
structure Attachment where
  filename : List Char
  originalName : List Char
  mimetype : List Char
  size : Nat
  path : List Char
  thumbnailPath : Option (List Char) := none
deriving Repr, DecidableEq

/-- A document of the `Message` collection (`messageSchema`). -/
structure Message where
  id : Nat
  text : List Char
  senderId : Nat
  conversationId : Nat
  messageType : MessageType := MessageType.text
  attachments : List Attachment := []
  isEdited : Bool := false
  editedAt : Option Nat := none
  isDeleted : Bool := false
  deletedAt : Option Nat := none
  deletedBy : Option Nat := none
  reactions : List Reaction := []
  replyTo : Option Nat := none
  deliveryStatus : DeliveryStatus := DeliveryStatus.sent
  readBy : List ReadReceipt := []
  createdAt : Nat := 0
deriving Repr, DecidableEq

/-- A document of the `Conversation` collection (`conversationSchema`).
The schema declares no tenant field: the `companyId` the chat routes pass
to `Conversation.create` is not part of the schema. -/
structure Conversation where
  id : Nat
  title : List Char
  participants : List Nat
  createdBy : Nat
  lastMessage : Option (List Char) := none
  lastMessageAt : Option Nat := none
  isGroup : Bool := false
  isActive : Bool := true
  description : Option (List Char) := none
deriving Repr, DecidableEq

/-- A document of the `User` collection, with the fields the handlers read
(`_id`, `companyId`, `isActive`, `role`). -/
structure User where
  id : Nat
  companyId : Nat
  isActive : Bool := true
  role : Role := Role.user
deriving Repr, DecidableEq

/-- The shared persisted state the handlers read and write. -/
structure World where
  users : List User
  convs : List Conversation
  msgs : List Message
deriving Repr, DecidableEq

/-- An error response sent by a route handler: HTTP status plus the
`error` code string of the JSON body. -/
structure ErrResponse where
  status : Nat
  error : String
deriving Repr, DecidableEq

/-- `Model.findById` on the message collection. -/
def findMessage (msgs : List Message) (id : Nat) : Option Message :=
  msgs.find? fun m => decide (m.id = id)

/-- `Model.findById` on the conversation collection. -/
def findConv (convs : List Conversation) (id : Nat) : Option Conversation :=
  convs.find? fun c => decide (c.id = id)

/-- Persisting a loaded message document overwrites the stored document
with the same id. -/
def replaceMessage (msgs : List Message) (m : Message) : List Message :=
  msgs.map fun x => if x.id = m.id then m else x

/-- Persisting a conversation document: overwrite the stored document
with the same id, or insert the document when it is new. -/
def upsertConversation (convs : List Conversation) (c : Conversation) : List Conversation :=
  if convs.any (fun x => decide (x.id = c.id)) then
    convs.map fun x => if x.id = c.id then c else x
  else
    convs ++ [c]

/-- First pre-save hook of `messageSchema`: `reaction.count = reaction.users.length`
for every reaction entry. -/
def syncReactionCounts (rs : List Reaction) : List Reaction :=
  rs.map fun r => { r with count := r.users.length }

/-- The part of `messageSchema.pre('save')` that acts on the message
document itself (the conversation-cache refresh it also performs is
modelled where the enclosing handler's state is available). -/
def messagePreSave (m : Message) : Message :=
  { m with reactions := syncReactionCounts m.reactions }

/-- `messageSchema.methods.markAsRead(userId)`. -/
def Message.markAsRead (m : Message) (userId now : Nat) : Message :=
  if m.readBy.any (fun r => decide (r.userId = userId)) then
    messagePreSave m
  else
    messagePreSave
      { m with readBy := m.readBy ++ [{ userId := userId, readAt := now }],
               deliveryStatus := DeliveryStatus.read }

/-- Rewrites the first reaction entry carrying `emoji`; the source methods
mutate the entry returned by `this.reactions.find(...)`. -/
def updateFirstReaction : List Reaction → String → (Reaction → Reaction) → List Reaction
  | [], _, _ => []
  | r :: rs, e, f => if r.emoji = e then f r :: rs else r :: updateFirstReaction rs e f

/-- `messageSchema.methods.addReaction(userId, emoji)`: create the entry
for `emoji` when absent, then add the user to the entry's set unless
already present, keeping `count` equal to the set size; ends in `save`. -/
def Message.addReaction (m : Message) (userId : Nat) (emoji : String) : Message :=
  let rs :=
    if m.reactions.any (fun r => decide (r.emoji = emoji)) then m.reactions
    else m.reactions ++ [{ emoji := emoji, users := [], count := 0 }]
  let rs := updateFirstReaction rs emoji fun r =>
    if userId ∈ r.users then r
    else { r with users := r.users ++ [userId], count := (r.users ++ [userId]).length }
  messagePreSave { m with reactions := rs }

/-- `messageSchema.methods.removeReaction(userId, emoji)`: filter the user
out of the entry's set, reset `count`, and drop the entry when the count
reaches zero; ends in `save`. -/
def Message.removeReaction (m : Message) (userId : Nat) (emoji : String) : Message :=
  match m.reactions.find? (fun r => decide (r.emoji = emoji)) with
  | none => messagePreSave m
  | some r =>
    let users := r.users.filter fun uid => decide (¬ uid = userId)
    let rs := updateFirstReaction m.reactions emoji fun rr =>
      { rr with users := rr.users.filter fun uid => decide (¬ uid = userId),
                count := (rr.users.filter fun uid => decide (¬ uid = userId)).length }
    let rs := if users.length = 0 then rs.filter (fun r2 => decide (¬ r2.emoji = emoji)) else rs
    messagePreSave { m with reactions := rs }

/-- The tombstone text `softDelete` writes. -/
def tombstoneText : List Char := "[Message deleted]".data

/-- `messageSchema.methods.softDelete(deletedBy)`; its `save` fires the
edit-tracking pre-save hook because the text path was assigned. -/
def Message.softDelete (m : Message) (deletedBy now : Nat) : Message :=
  let m1 := { m with isDeleted := true, deletedAt := some now, deletedBy := some deletedBy,
                     text := tombstoneText, attachments := ([] : List Attachment) }
  let m1 := if m.text = tombstoneText then m1
            else { m1 with isEdited := true, editedAt := some now }
  messagePreSave m1

/-- `messageSchema.statics.updateConversationLastMessage(conversationId, messageText, timestamp)`:
a `findByIdAndUpdate` on the conversation collection (no document
middleware on the updated conversation). -/
def Message.updateConversationLastMessage (convs : List Conversation)
    (conversationId : Nat) (messageText : List Char) (timestamp : Option Nat) (now : Nat) :
    List Conversation :=
  convs.map fun c =>
    if c.id = conversationId then
      { c with
        lastMessage := some (if messageText.length > 200 then
                               messageText.take 197 ++ "...".data
                             else messageText),
        lastMessageAt := some (timestamp.getD now) }
    else c

/-- Reverse-chronological order used by the message queries. -/
def createdDesc (a b : Message) : Prop := b.createdAt ≤ a.createdAt

instance : DecidableRel createdDesc := fun a b => Nat.decLe b.createdAt a.createdAt

instance : IsTotal Message createdDesc :=
  ⟨fun a b => Nat.le_total b.createdAt a.createdAt⟩

instance : IsTrans Message createdDesc :=
  ⟨fun _ _ _ h1 h2 => Nat.le_trans h2 h1⟩

/-- `messageSchema.statics.getConversationMessages(conversationId, page, limit)`:
`find({conversationId, isDeleted: false})`, sorted by `createdAt`
descending, with `skip((page-1)*limit)` and `limit(limit)`. -/
def Message.getConversationMessages (msgs : List Message)
    (conversationId : Nat) (page limit : Nat) : List Message :=
  let skip := (page - 1) * limit
  ((List.insertionSort createdDesc
      (msgs.filter fun m =>
        decide (m.conversationId = conversationId) && decide (m.isDeleted = false))).drop
    skip).take limit

/-- The effect of the `markMessagesAsRead` `updateMany` on one stored
message: its filter is `conversationId`, `senderId: {$ne: userId}`,
`readBy.userId: {$ne: userId}`, `isDeleted: false`; its update pushes a
receipt and sets the delivery status to `read`. -/
def markReadOne (userId conversationId now : Nat) (m : Message) : Message :=
  if m.conversationId = conversationId ∧ ¬ m.senderId = userId ∧
     ¬ (m.readBy.any fun r => decide (r.userId = userId)) ∧ m.isDeleted = false then
    { m with readBy := m.readBy ++ [{ userId := userId, readAt := now }],
             deliveryStatus := DeliveryStatus.read }
  else m

/-- `messageSchema.statics.markMessagesAsRead(userId, conversationId)`: an
`updateMany` (no document middleware) applying `markReadOne` to every
stored message. -/
def Message.markMessagesAsRead (msgs : List Message) (userId conversationId now : Nat) :
    List Message :=
  msgs.map (markReadOne userId conversationId now)

/-- `conversationSchema.methods.hasParticipant(userId)`. -/
def Conversation.hasParticipant (c : Conversation) (userId : Nat) : Bool :=
  c.participants.any fun pid => decide (pid = userId)

/-- `conversationSchema.pre('save')`: push the creator into the
participants when missing, reject fewer than 2 participants, and force
`isGroup` when more than 2. -/
def conversationPreSave (c : Conversation) : Except String Conversation :=
  let c := if c.createdBy ∈ c.participants then c
           else { c with participants := c.participants ++ [c.createdBy] }
  if c.participants.length < 2 then
    Except.error "Conversation must have at least 2 participants"
  else
    Except.ok (if c.participants.length > 2 then { c with isGroup := true } else c)

/-- `conversation.save()`: run the pre-save hook, then persist into the
collection; a hook error rejects the save and persists nothing. -/
def saveConversation (convs : List Conversation) (c : Conversation) :
    Except String (List Conversation × Conversation) :=
  match conversationPreSave c with
  | Except.error e => Except.error e
  | Except.ok c1 => Except.ok (upsertConversation convs c1, c1)

/-- `conversationSchema.methods.addParticipant(userId)` before its `save`. -/
def Conversation.addParticipant (c : Conversation) (userId : Nat) : Conversation :=
  if userId ∈ c.participants then c
  else
    let c := { c with participants := c.participants ++ [userId] }
    if c.participants.length > 2 then { c with isGroup := true } else c

/-- `conversationSchema.methods.removeParticipant(userId)` before its `save`. -/
def Conversation.removeParticipant (c : Conversation) (userId : Nat) : Conversation :=
  let c := { c with participants := c.participants.filter fun pid => decide (¬ pid = userId) }
  if c.participants.length ≤ 2 then { c with isGroup := false } else c

/-- `conversationSchema.methods.updateLastMessage(messageText, timestamp)`
before its `save`. -/
def Conversation.updateLastMessage (c : Conversation) (messageText : List Char)
    (timestamp : Option Nat) (now : Nat) : Conversation :=
  { c with
    lastMessage := some (if messageText.length > 200 then
                           messageText.take 197 ++ "...".data
                         else messageText),
    lastMessageAt := some (timestamp.getD now) }

/-- The `findOne` filter of `findOrCreateDirectConversation`:
`participants: {$all: [user1Id, user2Id]}, isGroup: false, isActive: true`. -/
def isActiveDirectBetween (user1Id user2Id : Nat) (c : Conversation) : Bool :=
  c.participants.any (fun pid => decide (pid = user1Id)) &&
  c.participants.any (fun pid => decide (pid = user2Id)) &&
  decide (c.isGroup = false) && decide (c.isActive = true)

/-- `conversationSchema.statics.findOrCreateDirectConversation(user1Id, user2Id)`:
find an active non-group conversation containing both users, or create
one titled "Direct Message" with the pair as participants.  `newId` is
the id MongoDB assigns to the inserted document. -/
def Conversation.findOrCreateDirectConversation (convs : List Conversation)
    (user1Id user2Id newId : Nat) : Except String (List Conversation × Conversation) :=
  match convs.find? (isActiveDirectBetween user1Id user2Id) with
  | some conversation => Except.ok (convs, conversation)
  | none =>
    saveConversation convs
      { id := newId, title := "Direct Message".data,
        participants := [user1Id, user2Id], createdBy := user1Id, isGroup := false }

/-- Persisting a loaded message with `message.save()`: both pre-save hooks
run (reaction-count sync plus conversation-cache refresh; edit tracking
when the text path was assigned a different value), then the document
overwrites its stored version.  `prevText` is the text the loaded
document carried before the handler's assignments. -/
def saveLoadedMessage (w : World) (prevText : List Char) (m : Message) (now : Nat) :
    World × Message :=
  let m1 := if prevText = m.text then messagePreSave m
            else messagePreSave { m with isEdited := true, editedAt := some now }
  let convs1 :=
    if m1.isDeleted = false ∧ ¬ m1.messageType = MessageType.system then
      Message.updateConversationLastMessage w.convs m1.conversationId m1.text
        (some m1.createdAt) now
    else w.convs
  ({ w with convs := convs1, msgs := replaceMessage w.msgs m1 }, m1)

/-- `GET /api/messages/:id` (`src/routes/messages.js`): load the message,
then require the caller to be a participant of its conversation. -/
def getMessageRoute (w : World) (callerId msgId : Nat) : Except ErrResponse Message :=
  match findMessage w.msgs msgId with
  | none => Except.error { status := 404, error := "MESSAGE_NOT_FOUND" }
  | some message =>
    match findConv w.convs message.conversationId with
    | none => Except.error { status := 403, error := "ACCESS_DENIED" }
    | some conversation =>
      if conversation.hasParticipant callerId then Except.ok message
      else Except.error { status := 403, error := "ACCESS_DENIED" }

/-- `PUT /api/messages/:id` (`src/routes/messages.js`): only the sender
may edit, a soft-deleted message is rejected, then the text is assigned
and the document saved. -/
def updateMessageRoute (w : World) (callerId msgId : Nat) (newText : List Char) (now : Nat) :
    Except ErrResponse (World × Message) :=
  match findMessage w.msgs msgId with
  | none => Except.error { status := 404, error := "MESSAGE_NOT_FOUND" }
  | some message =>
    if ¬ message.senderId = callerId then
      Except.error { status := 403, error := "ACCESS_DENIED" }
    else if message.isDeleted then
      Except.error { status := 400, error := "MESSAGE_DELETED" }
    else
      Except.ok (saveLoadedMessage w message.text { message with text := newText } now)

/-- `PUT /api/chat/messages/:id` (`src/routes/chat.js`): express-validator
bounds the text length, only the sender may edit, `editedAt` is assigned
explicitly, and the document saved.  No soft-deletion check is made. -/
def chatEditMessageRoute (w : World) (callerId msgId : Nat) (newText : List Char) (now : Nat) :
    Except ErrResponse (World × Message) :=
  if newText.length < 1 ∨ newText.length > 5000 then
    Except.error { status := 400, error := "VALIDATION_FAILED" }
  else
    match findMessage w.msgs msgId with
    | none => Except.error { status := 404, error := "MESSAGE_NOT_FOUND" }
    | some message =>
      if ¬ message.senderId = callerId then
        Except.error { status := 403, error := "ACCESS_DENIED" }
      else
        Except.ok (saveLoadedMessage w message.text
          { message with text := newText, editedAt := some now } now)

/-- `DELETE /api/messages/:id` (`src/routes/messages.js`): sender or
administrator; tombstones via `softDelete` and persists. -/
def deleteMessageRoute (w : World) (caller : User) (msgId : Nat) (now : Nat) :
    Except ErrResponse World :=
  match findMessage w.msgs msgId with
  | none => Except.error { status := 404, error := "MESSAGE_NOT_FOUND" }
  | some message =>
    if message.senderId = caller.id ∨ caller.role = Role.admin then
      Except.ok { w with msgs := replaceMessage w.msgs (message.softDelete caller.id now) }
    else
      Except.error { status := 403, error := "ACCESS_DENIED" }

/-- `DELETE /api/chat/messages/:id` (`src/routes/chat.js`): sender only;
`findByIdAndDelete` permanently removes the document. -/
def chatDeleteMessageRoute (w : World) (callerId msgId : Nat) : Except ErrResponse World :=
  match findMessage w.msgs msgId with
  | none => Except.error { status := 404, error := "MESSAGE_NOT_FOUND" }
  | some message =>
    if ¬ message.senderId = callerId then
      Except.error { status := 403, error := "ACCESS_DENIED" }
    else
      Except.ok { w with msgs := w.msgs.filter fun m => decide (¬ m.id = msgId) }

/-- `POST /api/conversations/:id/messages` (`src/routes/messages.js`)
without file attachments: participant check, reply-target check, message
creation (its save refreshes the conversation cache), then the handler's
own `conversation.updateLastMessage(text || '[File attachment]',
message.createdAt)` followed by the conversation save. -/
def sendMessageRoute (w : World) (callerId convId : Nat) (text : List Char)
    (messageType : MessageType) (replyTo : Option Nat) (newMsgId now : Nat) :
    Except ErrResponse (World × Message) :=
  match findConv w.convs convId with
  | none => Except.error { status := 404, error := "CONVERSATION_NOT_FOUND" }
  | some conversation =>
    if ¬ conversation.hasParticipant callerId then
      Except.error { status := 403, error := "ACCESS_DENIED" }
    else
      let replyOk :=
        match replyTo with
        | none => true
        | some rid =>
          match findMessage w.msgs rid with
          | none => false
          | some replyMessage => decide (replyMessage.conversationId = convId)
      if ¬ replyOk = true then
        Except.error { status := 400, error := "INVALID_REPLY" }
      else
        let message : Message :=
          { id := newMsgId, text := text, senderId := callerId, conversationId := convId,
            messageType := messageType, replyTo := replyTo, createdAt := now }
        let message := messagePreSave message
        let convs1 :=
          if message.isDeleted = false ∧ ¬ message.messageType = MessageType.system then
            Message.updateConversationLastMessage w.convs convId message.text
              (some message.createdAt) now
          else w.convs
        let previewText := if text = [] then "[File attachment]".data else text
        match saveConversation convs1
            (conversation.updateLastMessage previewText (some message.createdAt) now) with
        | Except.error _ => Except.error { status := 500, error := "INTERNAL_SERVER_ERROR" }
        | Except.ok (convs2, _) =>
          Except.ok ({ w with convs := convs2, msgs := w.msgs ++ [message] }, message)

/-- `POST /api/conversations` (`src/routes/users.js`): push the caller
into the participant list when missing, require every participant to be
an active user of the caller's company, then create the conversation with
`isGroup: isGroup || participants.length > 2`. -/
def createConversationRoute (w : World) (caller : User) (title : List Char)
    (participants : List Nat) (description : Option (List Char)) (isGroup : Bool)
    (newId : Nat) : Except ErrResponse (World × Conversation) :=
  let participants :=
    if participants.any (fun pid => decide (pid = caller.id)) then participants
    else participants ++ [caller.id]
  let participantUsers := w.users.filter fun u =>
    participants.any (fun pid => decide (pid = u.id)) &&
    decide (u.companyId = caller.companyId) && decide (u.isActive = true)
  if ¬ participantUsers.length = participants.length then
    Except.error { status := 400, error := "INVALID_PARTICIPANTS" }
  else
    match saveConversation w.convs
        { id := newId, title := title, participants := participants,
          createdBy := caller.id, description := description,
          isGroup := isGroup || decide (participants.length > 2) } with
    | Except.error _ => Except.error { status := 500, error := "INTERNAL_SERVER_ERROR" }
    | Except.ok (convs1, conversation) =>
      Except.ok ({ w with convs := convs1 }, conversation)

/-- `POST /api/conversations/direct` (`src/routes/users.js`): the target
participant must be an active user of the caller's company and distinct
from the caller; then `findOrCreateDirectConversation`. -/
def createDirectConversationRoute (w : World) (caller : User) (participantId : Option Nat)
    (newId : Nat) : Except ErrResponse (World × Conversation) :=
  match participantId with
  | none => Except.error { status := 400, error := "MISSING_PARTICIPANT" }
  | some pid =>
    match w.users.find? (fun u =>
        decide (u.id = pid) && decide (u.companyId = caller.companyId) &&
        decide (u.isActive = true)) with
    | none => Except.error { status := 404, error := "INVALID_PARTICIPANT" }
    | some _ =>
      if pid = caller.id then
        Except.error { status := 400, error := "SELF_CONVERSATION" }
      else
        match Conversation.findOrCreateDirectConversation w.convs caller.id pid newId with
        | Except.error _ => Except.error { status := 500, error := "INTERNAL_SERVER_ERROR" }
        | Except.ok (convs1, conversation) =>
          Except.ok ({ w with convs := convs1 }, conversation)

/-- `DELETE /api/conversations/:id/participants/:userId`
(`src/routes/users.js`): requester must be a participant and must be
removing themselves unless an administrator; the removed user must be a
participant; then `removeParticipant` and its save. -/
def removeParticipantRoute (w : World) (caller : User) (convId userId : Nat) :
    Except ErrResponse (World × Conversation) :=
  match findConv w.convs convId with
  | none => Except.error { status := 404, error := "CONVERSATION_NOT_FOUND" }
  | some conversation =>
    if ¬ conversation.hasParticipant caller.id then
      Except.error { status := 403, error := "ACCESS_DENIED" }
    else if ¬ caller.role = Role.admin ∧ ¬ userId = caller.id then
      Except.error { status := 403, error := "ACCESS_DENIED" }
    else if ¬ conversation.hasParticipant userId then
      Except.error { status := 400, error := "USER_NOT_PARTICIPANT" }
    else
      match saveConversation w.convs (conversation.removeParticipant userId) with
      | Except.error _ => Except.error { status := 500, error := "INTERNAL_SERVER_ERROR" }
      | Except.ok (convs1, conversation) =>
        Except.ok ({ w with convs := convs1 }, conversation)

/-- Replacing the stored document that carries `m1.id` is visible to a
subsequent `findById`. -/
theorem findMessage_replaceMessage (msgs : List Message) (id1 : Nat) (m m1 : Message)
    (hfind : findMessage msgs id1 = some m) (hid : m1.id = id1) :
    findMessage (replaceMessage msgs m1) id1 = some m1 := by
  induction msgs with
  | nil => simp [findMessage] at hfind
  | cons x xs ih =>
    by_cases hx : x.id = id1
    · simp [findMessage, replaceMessage, hx, hid]
    · have hfind1 : findMessage xs id1 = some m := by
        simpa [findMessage, List.find?_cons, hx] using hfind
      have := ih hfind1
      simpa [findMessage, replaceMessage, hx, hid, List.find?_cons] using this

/-- Overwriting every stored conversation carrying `c.id` is visible to a
subsequent lookup, as soon as one such conversation is stored. -/
theorem findConv_overwrite (convs : List Conversation) (c : Conversation)
    (hany : (convs.any fun x => decide (x.id = c.id)) = true) :
    findConv (convs.map fun x => if x.id = c.id then c else x) c.id = some c := by
  induction convs with
  | nil => simp at hany
  | cons y ys ih =>
    by_cases hy : y.id = c.id
    · simp [findConv, hy]
    · have hany1 : (ys.any fun x => decide (x.id = c.id)) = true := by
        simpa [hy] using hany
      have := ih hany1
      simpa [findConv, List.find?_cons, hy] using this

/-- A conversation stored under `c.id` is found after overwriting it. -/
theorem findConv_upsert_of_mem (convs : List Conversation) (c : Conversation)
    (h : ∃ x ∈ convs, x.id = c.id) :
    findConv (upsertConversation convs c) c.id = some c := by
  have hany : (convs.any fun x => decide (x.id = c.id)) = true := by
    rcases h with ⟨x, hx, hxid⟩
    exact List.any_eq_true.mpr ⟨x, hx, by simpa using hxid⟩
  rw [upsertConversation, if_pos hany]
  exact findConv_overwrite convs c hany

/-- The pre-save hook on an already well-formed conversation only applies
the `isGroup` promotion. -/
theorem conversationPreSave_of_valid (c : Conversation)
    (hc : c.createdBy ∈ c.participants) (hl : 2 ≤ c.participants.length) :
    conversationPreSave c =
      Except.ok (if c.participants.length > 2 then { c with isGroup := true } else c) := by
  simp [conversationPreSave, hc, Nat.not_lt.mpr hl]

/-- C10: Fetching a page of conversation messages never returns a
soft-deleted message: every returned message has `isDeleted = false` and
belongs to the requested conversation, at most `limit` messages are
returned, and they are ordered by `createdAt` descending — a tombstoned
message silently disappears from fetched pages. -/
theorem getConversationMessages_excludes_deleted
    (msgs : List Message) (conversationId page limit : Nat) :
    (∀ m ∈ Message.getConversationMessages msgs conversationId page limit,
       m.isDeleted = false ∧ m.conversationId = conversationId) ∧
    (Message.getConversationMessages msgs conversationId page limit).length ≤ limit ∧
    List.Pairwise createdDesc (Message.getConversationMessages msgs conversationId page limit) := by
  set flt := msgs.filter (fun m =>
    decide (m.conversationId = conversationId) && decide (m.isDeleted = false)) with hflt
  have hsub : List.Sublist (Message.getConversationMessages msgs conversationId page limit)
      (List.insertionSort createdDesc flt) := by
    rw [Message.getConversationMessages]
    exact (List.take_sublist _ _).trans (List.drop_sublist _ _)
  refine ⟨?_, ?_, ?_⟩
  · intro m hm
    have hm1 : m ∈ List.insertionSort createdDesc flt := hsub.subset hm
    have hm2 : m ∈ flt := (List.perm_insertionSort createdDesc flt).subset hm1
    have := List.of_mem_filter hm2
    simp only [Bool.and_eq_true, decide_eq_true_eq] at this
    exact ⟨this.2, this.1⟩
  · rw [Message.getConversationMessages]
    exact (List.length_take _ _ ▸ Nat.min_le_left _ _)
  · exact (List.sorted_insertionSort createdDesc flt).sublist hsub

/-- Witness for `getConversationMessages_excludes_deleted`. -/
theorem getConversationMessages_excludes_deleted_witness :
    (∀ m ∈ Message.getConversationMessages
        [{ id := 1, text := [], senderId := 1, conversationId := 4, isDeleted := true },
         { id := 2, text := [], senderId := 1, conversationId := 4, createdAt := 7 }] 4 1 50,
       m.isDeleted = false ∧ m.conversationId = 4) ∧
    (Message.getConversationMessages
        [{ id := 1, text := [], senderId := 1, conversationId := 4, isDeleted := true },
         { id := 2, text := [], senderId := 1, conversationId := 4, createdAt := 7 }] 4 1 50).length ≤ 50 ∧
    List.Pairwise createdDesc (Message.getConversationMessages
        [{ id := 1, text := [], senderId := 1, conversationId := 4, isDeleted := true },
         { id := 2, text := [], senderId := 1, conversationId := 4, createdAt := 7 }] 4 1 50) :=
  getConversationMessages_excludes_deleted _ 4 1 50

/-- C2: Create direct conversation is idempotent: when an active direct
conversation between the pair exists, it is returned with the store and
its fields untouched; otherwise a conversation with participant list
exactly `[userA, userB]` and creator `userA` is inserted and returned. -/
theorem findOrCreateDirectConversation_idempotent
    (convs : List Conversation) (user1Id user2Id newId : Nat) :
    (∀ c, convs.find? (isActiveDirectBetween user1Id user2Id) = some c →
        Conversation.findOrCreateDirectConversation convs user1Id user2Id newId =
          Except.ok (convs, c) ∧
        c ∈ convs ∧ c.isGroup = false ∧ c.isActive = true ∧
        user1Id ∈ c.participants ∧ user2Id ∈ c.participants) ∧
    (convs.find? (isActiveDirectBetween user1Id user2Id) = none →
      (convs.any fun x => decide (x.id = newId)) = false →
      ∃ c, Conversation.findOrCreateDirectConversation convs user1Id user2Id newId =
          Except.ok (convs ++ [c], c) ∧
        c.participants = [user1Id, user2Id] ∧ c.createdBy = user1Id ∧
        c.isGroup = false ∧ c.isActive = true ∧ c.id = newId) := by
  constructor
  · intro c hc
    have hmem := List.mem_of_find?_eq_some hc
    have hprop := List.find?_some hc
    simp only [isActiveDirectBetween, Bool.and_eq_true, List.any_eq_true,
      decide_eq_true_eq] at hprop
    obtain ⟨⟨⟨h1, h2⟩, h3⟩, h4⟩ := hprop
    obtain ⟨x1, hx1, hx1e⟩ := h1
    obtain ⟨x2, hx2, hx2e⟩ := h2
    subst hx1e hx2e
    refine ⟨?_, hmem, h3, h4, hx1, hx2⟩
    rw [Conversation.findOrCreateDirectConversation, hc]
  · intro hnone hfresh
    refine ⟨{ id := newId, title := "Direct Message".data,
              participants := [user1Id, user2Id], createdBy := user1Id,
              isGroup := false }, ?_, rfl, rfl, rfl, rfl, rfl⟩
    rw [Conversation.findOrCreateDirectConversation, hnone]
    simp [saveConversation, conversationPreSave, upsertConversation, hfresh]

/-- Witness for `findOrCreateDirectConversation_idempotent`, at a store
already holding a direct conversation between users 1 and 2, and at an
empty store. -/
theorem findOrCreateDirectConversation_idempotent_witness :
    (Conversation.findOrCreateDirectConversation
        [{ id := 9, title := [], participants := [1, 2], createdBy := 2, isGroup := false }]
        1 2 5 =
      Except.ok ([{ id := 9, title := [], participants := [1, 2], createdBy := 2,
                    isGroup := false }],
        { id := 9, title := [], participants := [1, 2], createdBy := 2, isGroup := false }) ∧
      ({ id := 9, title := [], participants := [1, 2], createdBy := 2,
         isGroup := false } : Conversation) ∈
        [{ id := 9, title := [], participants := [1, 2], createdBy := 2,
           isGroup := false }] ∧
      false = false ∧ true = true ∧ (1 : Nat) ∈ [1, 2] ∧ (2 : Nat) ∈ [1, 2]) ∧
    (∃ c, Conversation.findOrCreateDirectConversation [] 1 2 5 = Except.ok ([] ++ [c], c) ∧
      c.participants = [1, 2] ∧ c.createdBy = 1 ∧ c.isGroup = false ∧ c.isActive = true ∧
      c.id = 5) :=
  ⟨by
    have h := (findOrCreateDirectConversation_idempotent
      [{ id := 9, title := [], participants := [1, 2], createdBy := 2, isGroup := false }]
      1 2 5).1
      { id := 9, title := [], participants := [1, 2], createdBy := 2, isGroup := false }
      (by decide)
    simpa using h,
   (findOrCreateDirectConversation_idempotent [] 1 2 5).2 rfl rfl⟩

/-- C6 counterexample: a soft-deleted message from another sender with no
receipt for user 3 is left untouched by `markMessagesAsRead` (the
`updateMany` filter also requires `isDeleted: false`), although the claim
demands a receipt for every no-receipt message from another sender. -/
theorem markMessagesAsRead_skips_deleted_counterexample :
    Message.markMessagesAsRead
        [{ id := 1, text := "hi".data, senderId := 2, conversationId := 1,
           isDeleted := true }] 3 1 5 =
      [{ id := 1, text := "hi".data, senderId := 2, conversationId := 1,
         isDeleted := true }] ∧
    ({ id := 1, text := "hi".data, senderId := 2, conversationId := 1,
       isDeleted := true } : Message).conversationId = 1 ∧
    ¬ ({ id := 1, text := "hi".data, senderId := 2, conversationId := 1,
         isDeleted := true } : Message).senderId = 3 ∧
    ({ id := 1, text := "hi".data, senderId := 2, conversationId := 1,
       isDeleted := true } : Message).readBy = [] := by
  refine ⟨?_, rfl, by decide, rfl⟩
  simp [Message.markMessagesAsRead, markReadOne]

/-- C6 (amended): `markMessagesAsRead(user, conversation)` appends a
receipt (with the current timestamp) and raises the delivery status to
`read` exactly for the conversation's messages whose sender is not the
user, that carry no receipt for the user yet, and that are not
soft-deleted; it is idempotent, and it never yields two receipts for the
same user on the same message. -/
theorem markMessagesAsRead_spec (msgs : List Message) (userId conversationId now now2 : Nat) :
    (∀ m,
      ((markReadOne userId conversationId now m).readBy =
          m.readBy ++ [{ userId := userId, readAt := now }] ∧
       (markReadOne userId conversationId now m).deliveryStatus = DeliveryStatus.read) ↔
      (m.conversationId = conversationId ∧ ¬ m.senderId = userId ∧
       ¬ (∃ r ∈ m.readBy, r.userId = userId) ∧ m.isDeleted = false)) ∧
    (∀ m, ¬ (m.conversationId = conversationId ∧ ¬ m.senderId = userId ∧
       ¬ (∃ r ∈ m.readBy, r.userId = userId) ∧ m.isDeleted = false) →
      markReadOne userId conversationId now m = m) ∧
    Message.markMessagesAsRead
        (Message.markMessagesAsRead msgs userId conversationId now) userId conversationId now2 =
      Message.markMessagesAsRead msgs userId conversationId now ∧
    (∀ m, (m.readBy.filter fun r => decide (r.userId = userId)).length ≤ 1 →
      ((markReadOne userId conversationId now m).readBy.filter
          fun r => decide (r.userId = userId)).length ≤ 1) := by
  have hcond : ∀ m : Message,
      (m.conversationId = conversationId ∧ ¬ m.senderId = userId ∧
       ¬ (m.readBy.any fun r => decide (r.userId = userId)) = true ∧ m.isDeleted = false) ↔
      (m.conversationId = conversationId ∧ ¬ m.senderId = userId ∧
       ¬ (∃ r ∈ m.readBy, r.userId = userId) ∧ m.isDeleted = false) := by
    intro m
    simp [List.any_eq_true]
  refine ⟨?_, ?_, ?_, ?_⟩
  · intro m
    constructor
    · intro ⟨hr, _⟩
      by_cases hc : m.conversationId = conversationId ∧ ¬ m.senderId = userId ∧
          ¬ (m.readBy.any fun r => decide (r.userId = userId)) = true ∧ m.isDeleted = false
      · exact (hcond m).mp hc
      · rw [markReadOne, if_neg hc] at hr
        exact absurd hr (by simp)
    · intro hc
      have hc' := (hcond m).mpr hc
      rw [markReadOne, if_pos hc']
      exact ⟨rfl, rfl⟩
  · intro m hc
    rw [markReadOne, if_neg (fun h => hc ((hcond m).mp h))]
  · simp only [Message.markMessagesAsRead, List.map_map]
    refine List.map_congr_left fun m _ => ?_
    simp only [Function.comp_apply]
    by_cases hc : m.conversationId = conversationId ∧ ¬ m.senderId = userId ∧
        ¬ (m.readBy.any fun r => decide (r.userId = userId)) = true ∧ m.isDeleted = false
    · set q := markReadOne userId conversationId now m with hq
      have hup : (q.readBy.any fun r => decide (r.userId = userId)) = true := by
        rw [hq, markReadOne, if_pos hc]
        simp
      rw [markReadOne, if_neg fun h => h.2.2.1 hup]
    · have hm : markReadOne userId conversationId now m = m := by
        rw [markReadOne, if_neg hc]
      rw [hm, markReadOne, if_neg hc]
  · intro m hm
    by_cases hc : m.conversationId = conversationId ∧ ¬ m.senderId = userId ∧
        ¬ (m.readBy.any fun r => decide (r.userId = userId)) = true ∧ m.isDeleted = false
    · rw [markReadOne, if_pos hc]
      have hnone : (m.readBy.filter fun r => decide (r.userId = userId)) = [] := by
        rcases hc with ⟨_, _, hno, _⟩
        rw [List.filter_eq_nil_iff]
        intro r hr
        simp only [List.any_eq_true] at hno
        simpa using fun he => hno ⟨r, hr, by simpa using he⟩
      simp [List.filter_append, hnone]
    · rw [markReadOne, if_neg hc]
      exact hm

/-- Witness for `markMessagesAsRead_spec`. -/
theorem markMessagesAsRead_spec_witness :
    Message.markMessagesAsRead
        (Message.markMessagesAsRead
          [{ id := 1, text := "a".data, senderId := 2, conversationId := 1 }] 3 1 5) 3 1 6 =
      Message.markMessagesAsRead
        [{ id := 1, text := "a".data, senderId := 2, conversationId := 1 }] 3 1 5 ∧
    markReadOne 3 1 5 { id := 2, text := "b".data, senderId := 3, conversationId := 1 } =
      { id := 2, text := "b".data, senderId := 3, conversationId := 1 } :=
  ⟨(markMessagesAsRead_spec
      [{ id := 1, text := "a".data, senderId := 2, conversationId := 1 }] 3 1 5 6).2.2.1,
   (markMessagesAsRead_spec
      [{ id := 1, text := "a".data, senderId := 2, conversationId := 1 }] 3 1 5 6).2.1
      { id := 2, text := "b".data, senderId := 3, conversationId := 1 } (by simp)⟩

/-- C1 counterexample: user 3 of company 2 fetches message 10, which
lives in a conversation whose participants (users 1 and 2) belong to
company 1; the handler answers 403 `ACCESS_DENIED`, not the 404
`NotFoundError` the claim requires, thereby revealing that the message
exists. -/
theorem getMessage_cross_tenant_counterexample :
    getMessageRoute
        { users := [{ id := 1, companyId := 1 }, { id := 2, companyId := 1 },
                    { id := 3, companyId := 2 }],
          convs := [{ id := 1, title := "Chat".data, participants := [1, 2], createdBy := 1 }],
          msgs := [{ id := 10, text := "hello".data, senderId := 1, conversationId := 1 }] }
        3 10 =
      Except.error { status := 403, error := "ACCESS_DENIED" } ∧
    ¬ (403 : Nat) = 404 ∧
    ((([{ id := 1, companyId := 1 }, { id := 2, companyId := 1 },
        { id := 3, companyId := 2 }] : List User).filter
          fun u => decide (u.id = 1) || decide (u.id = 2)).all
      fun u => decide (u.companyId = 1)) = true ∧
    ((([{ id := 1, companyId := 1 }, { id := 2, companyId := 1 },
        { id := 3, companyId := 2 }] : List User).filter
          fun u => decide (u.id = 3)).all
      fun u => decide (u.companyId = 2)) = true := by
  refine ⟨rfl, by decide, by decide, by decide⟩

/-- C1 (amended): access control on the message operations is by
conversation membership and sender identity, not by a uniform
`NotFoundError`: fetching a single message succeeds only for a
participant of the message's conversation, and a non-participant (in
particular any cross-tenant caller) receives 403 `ACCESS_DENIED`;
editing is refused with 403 `ACCESS_DENIED` for any caller other than
the sender, with nothing persisted; create-or-get direct conversation
(users route) rejects a participant id with no active user in the
caller's company with 404 `INVALID_PARTICIPANT`. -/
theorem message_access_control :
    (∀ w callerId msgId m, getMessageRoute w callerId msgId = Except.ok m →
      ∃ c, findConv w.convs m.conversationId = some c ∧ c.hasParticipant callerId = true) ∧
    (∀ w callerId msgId m c, findMessage w.msgs msgId = some m →
      findConv w.convs m.conversationId = some c → c.hasParticipant callerId = false →
      getMessageRoute w callerId msgId =
        Except.error { status := 403, error := "ACCESS_DENIED" }) ∧
    (∀ w callerId msgId newText now m, findMessage w.msgs msgId = some m →
      ¬ m.senderId = callerId →
      updateMessageRoute w callerId msgId newText now =
        Except.error { status := 403, error := "ACCESS_DENIED" }) ∧
    (∀ w (caller : User) pid newId,
      (w.users.find? fun u => decide (u.id = pid) && decide (u.companyId = caller.companyId) &&
        decide (u.isActive = true)) = none →
      createDirectConversationRoute w caller (some pid) newId =
        Except.error { status := 404, error := "INVALID_PARTICIPANT" }) := by
  refine ⟨?_, ?_, ?_, ?_⟩
  · intro w callerId msgId m h
    rw [getMessageRoute] at h
    cases hfm : findMessage w.msgs msgId with
    | none => rw [hfm] at h; cases h
    | some msg =>
      rw [hfm] at h
      dsimp only at h
      cases hfc : findConv w.convs msg.conversationId with
      | none => rw [hfc] at h; cases h
      | some conv =>
        rw [hfc] at h
        dsimp only at h
        by_cases hp : conv.hasParticipant callerId = true
        · rw [if_pos hp] at h
          cases h
          exact ⟨conv, hfc, hp⟩
        · rw [if_neg hp] at h
          cases h
  · intro w callerId msgId m c hm hc hp
    rw [getMessageRoute, hm]
    dsimp only
    rw [hc]
    dsimp only
    rw [if_neg]
    simp [hp]
  · intro w callerId msgId newText now m hm hs
    rw [updateMessageRoute, hm]
    dsimp only
    rw [if_pos hs]
  · intro w caller pid newId hnone
    rw [createDirectConversationRoute, hnone]

/-- Witness for `message_access_control`. -/
theorem message_access_control_witness :
    (∃ c, findConv
        [{ id := 1, title := "Chat".data, participants := [1, 2], createdBy := 1 }]
        1 = some c ∧ c.hasParticipant 1 = true) ∧
    getMessageRoute
        { users := [], convs := [{ id := 1, title := "Chat".data, participants := [1, 2],
                                   createdBy := 1 }],
          msgs := [{ id := 10, text := "hello".data, senderId := 1, conversationId := 1 }] }
        3 10 = Except.error { status := 403, error := "ACCESS_DENIED" } ∧
    updateMessageRoute
        { users := [], convs := [],
          msgs := [{ id := 10, text := "hello".data, senderId := 1, conversationId := 1 }] }
        2 10 "edited".data 9 = Except.error { status := 403, error := "ACCESS_DENIED" } ∧
    createDirectConversationRoute
        { users := [{ id := 4, companyId := 2 }], convs := [], msgs := [] }
        { id := 1, companyId := 1 } (some 4) 7 =
      Except.error { status := 404, error := "INVALID_PARTICIPANT" } :=
  ⟨message_access_control.1
      { users := [], convs := [{ id := 1, title := "Chat".data, participants := [1, 2],
                                 createdBy := 1 }],
        msgs := [{ id := 10, text := "hello".data, senderId := 1, conversationId := 1 }] }
      1 10 { id := 10, text := "hello".data, senderId := 1, conversationId := 1 } rfl,
   message_access_control.2.1
      { users := [], convs := [{ id := 1, title := "Chat".data, participants := [1, 2],
                                 createdBy := 1 }],
        msgs := [{ id := 10, text := "hello".data, senderId := 1, conversationId := 1 }] }
      3 10 { id := 10, text := "hello".data, senderId := 1, conversationId := 1 }
      { id := 1, title := "Chat".data, participants := [1, 2], createdBy := 1 }
      rfl rfl (by decide),
   message_access_control.2.2.1
      { users := [], convs := [],
        msgs := [{ id := 10, text := "hello".data, senderId := 1, conversationId := 1 }] }
      2 10 "edited".data 9 { id := 10, text := "hello".data, senderId := 1, conversationId := 1 }
      rfl (by decide),
   message_access_control.2.2.2
      { users := [{ id := 4, companyId := 2 }], convs := [], msgs := [] }
      { id := 1, companyId := 1 } 4 7 rfl⟩

/-- The participant list after the creator-push step of the
conversation pre-save hook. -/
def participantsWithCreator (c : Conversation) : List Nat :=
  if c.createdBy ∈ c.participants then c.participants
  else c.participants ++ [c.createdBy]

/-- The conversation pre-save hook, written through
`participantsWithCreator`. -/
theorem conversationPreSave_eq_pwc (c : Conversation) :
    conversationPreSave c =
      (if (participantsWithCreator c).length < 2 then
        Except.error "Conversation must have at least 2 participants"
      else Except.ok (if 2 < (participantsWithCreator c).length then
        { c with participants := participantsWithCreator c, isGroup := true }
      else { c with participants := participantsWithCreator c })) := by
  by_cases hmem : c.createdBy ∈ c.participants
  · simp only [conversationPreSave, participantsWithCreator, if_pos hmem]
  · simp only [conversationPreSave, participantsWithCreator, if_neg hmem]

/-- Successful branch of the conversation pre-save hook. -/
theorem conversationPreSave_ok (c : Conversation)
    (h : 2 ≤ (participantsWithCreator c).length) :
    conversationPreSave c = Except.ok
      (if 2 < (participantsWithCreator c).length then
        { c with participants := participantsWithCreator c, isGroup := true }
      else { c with participants := participantsWithCreator c }) := by
  rw [conversationPreSave_eq_pwc, if_neg (Nat.not_lt.mpr h)]

/-- Failing branch of the conversation pre-save hook. -/
theorem conversationPreSave_err (c : Conversation)
    (h : (participantsWithCreator c).length < 2) :
    conversationPreSave c =
      Except.error "Conversation must have at least 2 participants" := by
  rw [conversationPreSave_eq_pwc, if_pos h]

/-- Inversion of a successful conversation pre-save. -/
theorem conversationPreSave_ok_inv (c c2 : Conversation)
    (h : conversationPreSave c = Except.ok c2) :
    c2.participants = participantsWithCreator c ∧
    2 ≤ (participantsWithCreator c).length ∧
    c2.id = c.id ∧ c2.createdBy = c.createdBy ∧ c2.isActive = c.isActive ∧
    c2.title = c.title ∧ c2.lastMessage = c.lastMessage ∧
    c2.lastMessageAt = c.lastMessageAt ∧
    c2.isGroup = (if 2 < (participantsWithCreator c).length then true else c.isGroup) := by
  by_cases hlen : (participantsWithCreator c).length < 2
  · rw [conversationPreSave_err c hlen] at h
    cases h
  · rw [conversationPreSave_ok c (Nat.not_lt.mp hlen)] at h
    by_cases hgt : 2 < (participantsWithCreator c).length
    · rw [if_pos hgt] at h
      cases h
      simp [hgt, Nat.not_lt.mp hlen]
    · rw [if_neg hgt] at h
      cases h
      simp [hgt, Nat.not_lt.mp hlen]

/-- Inversion of a successful conversation save. -/
theorem saveConversation_ok_inv (convs : List Conversation) (c : Conversation)
    (convs1 : List Conversation) (c1 : Conversation)
    (h : saveConversation convs c = Except.ok (convs1, c1)) :
    conversationPreSave c = Except.ok c1 ∧ convs1 = upsertConversation convs c1 := by
  rw [saveConversation] at h
  cases hps : conversationPreSave c with
  | error e => rw [hps] at h; cases h
  | ok c2 =>
    rw [hps] at h
    dsimp only at h
    injection h with h2
    injection h2 with ha hb
    refine ⟨?_, ?_⟩
    · rw [hb]
    · rw [← ha, hb]


/-- Every conversation in an upserted store is the saved one or was
already stored. -/
theorem mem_upsertConversation (convs : List Conversation) (c x : Conversation)
    (h : x ∈ upsertConversation convs c) : x ∈ convs ∨ x = c := by
  rw [upsertConversation] at h
  split at h
  · obtain ⟨y, hy, hxy⟩ := List.mem_map.mp h
    by_cases hid : y.id = c.id
    · right
      rw [← hxy, if_pos hid]
    · left
      rw [← hxy, if_neg hid]
      exact hy
  · rcases List.mem_append.mp h with h1 | h1
    · exact Or.inl h1
    · simp only [List.mem_singleton] at h1
      exact Or.inr h1

/-- `removeParticipant` written as a single conditional. -/
theorem removeParticipant_eq (c : Conversation) (u : Nat) :
    c.removeParticipant u =
      (if (c.participants.filter fun pid => decide (¬ pid = u)).length ≤ 2 then
        { c with participants := c.participants.filter fun pid => decide (¬ pid = u),
                 isGroup := false }
      else { c with participants := c.participants.filter fun pid => decide (¬ pid = u) }) := by
  rw [Conversation.removeParticipant]

/-- C4 counterexample: removing the creator from a 2-participant
conversation "would leave fewer than 2 participants", yet the call
succeeds — the pre-save hook silently re-adds the creator — instead of
failing as the claim requires. -/
theorem removeParticipant_creator_counterexample :
    ((([1, 2] : List Nat).filter fun pid => decide (¬ pid = 1)).length < 2) ∧
    (removeParticipantRoute
        { users := [], convs := [{ id := 1, title := "DM".data, participants := [1, 2],
                                   createdBy := 1, isGroup := false }], msgs := [] }
        { id := 1, companyId := 1 } 1 1).map (fun p => p.2.participants) =
      Except.ok [2, 1] := by
  exact ⟨by decide, rfl⟩

/-- C4 (amended): every successfully saved conversation has at least 2
participants (so the stored invariant holds after every operation), and a
remove-participant call that would leave fewer than 2 participants fails
— persisting nothing — when the removed user is not the creator; removing
the creator instead succeeds whenever the save goes through, with the
participant set unchanged as a set because the pre-save hook re-adds the
creator. -/
theorem participants_min_two :
    (∀ (convs convs1 : List Conversation) (c c1 : Conversation),
      saveConversation convs c = Except.ok (convs1, c1) →
      2 ≤ c1.participants.length) ∧
    (∀ (convs convs1 : List Conversation) (c c1 : Conversation),
      (∀ x ∈ convs, 2 ≤ x.participants.length) →
      saveConversation convs c = Except.ok (convs1, c1) →
      ∀ x ∈ convs1, 2 ≤ x.participants.length) ∧
    (∀ (convs : List Conversation) (c : Conversation) (u : Nat),
      c.createdBy ∈ c.participants → ¬ u = c.createdBy →
      (c.participants.filter fun pid => decide (¬ pid = u)).length < 2 →
      saveConversation convs (c.removeParticipant u) =
        Except.error "Conversation must have at least 2 participants") ∧
    (∀ (convs convs1 : List Conversation) (c c1 : Conversation),
      saveConversation convs (c.removeParticipant c.createdBy) = Except.ok (convs1, c1) →
      ∀ p, p ∈ c1.participants ↔ p ∈ c.participants ∨ p = c.createdBy) := by
  have hlen2 : ∀ c c1, conversationPreSave c = Except.ok c1 → 2 ≤ c1.participants.length := by
    intro c c1 h
    obtain ⟨hp, hl, -⟩ := conversationPreSave_ok_inv c c1 h
    rw [hp]
    exact hl
  refine ⟨?_, ?_, ?_, ?_⟩
  · intro convs convs1 c c1 h
    obtain ⟨hps, -⟩ := saveConversation_ok_inv convs c convs1 c1 h
    exact hlen2 c c1 hps
  · intro convs convs1 c c1 hstore h x hx
    obtain ⟨hps, hup⟩ := saveConversation_ok_inv convs c convs1 c1 h
    rw [hup] at hx
    rcases mem_upsertConversation convs c1 x hx with h1 | h1
    · exact hstore x h1
    · rw [h1]
      exact hlen2 c c1 hps
  · intro convs c u hmem hneq hlt
    have hparts : (c.removeParticipant u).participants =
        c.participants.filter fun pid => decide (¬ pid = u) := by
      rw [removeParticipant_eq]
      split <;> rfl
    have hcb : (c.removeParticipant u).createdBy = c.createdBy := by
      rw [removeParticipant_eq]
      split <;> rfl
    have hmem2 : (c.removeParticipant u).createdBy ∈ (c.removeParticipant u).participants := by
      rw [hparts, hcb]
      refine List.mem_filter.mpr ⟨hmem, ?_⟩
      simpa using fun h => hneq h.symm
    have hpwc : participantsWithCreator (c.removeParticipant u) =
        (c.removeParticipant u).participants := by
      rw [participantsWithCreator, if_pos hmem2]
    have herr := conversationPreSave_err (c.removeParticipant u)
      (by rw [hpwc, hparts]; exact hlt)
    rw [saveConversation, herr]
  · intro convs convs1 c c1 h p
    obtain ⟨hps, -⟩ :=
      saveConversation_ok_inv convs (c.removeParticipant c.createdBy) convs1 c1 h
    obtain ⟨hparts, -, -, -, -, -, -, -, -⟩ := conversationPreSave_ok_inv _ _ hps
    have hparts0 : (c.removeParticipant c.createdBy).participants =
        c.participants.filter fun pid => decide (¬ pid = c.createdBy) := by
      rw [removeParticipant_eq]
      split <;> rfl
    have hcb : (c.removeParticipant c.createdBy).createdBy = c.createdBy := by
      rw [removeParticipant_eq]
      split <;> rfl
    have hnotmem : ¬ (c.removeParticipant c.createdBy).createdBy ∈
        (c.removeParticipant c.createdBy).participants := by
      rw [hparts0, hcb]
      intro hmem
      have := (List.mem_filter.mp hmem).2
      simp at this
    rw [hparts, participantsWithCreator, if_neg hnotmem, hparts0, hcb]
    constructor
    · intro hp
      rcases List.mem_append.mp hp with h1 | h1
      · exact Or.inl (List.mem_of_mem_filter h1)
      · simp only [List.mem_singleton] at h1
        exact Or.inr h1
    · intro hp
      rcases hp with h1 | h1
      · by_cases hpc : p = c.createdBy
        · exact List.mem_append.mpr (Or.inr (by simp [hpc]))
        · exact List.mem_append.mpr (Or.inl (List.mem_filter.mpr ⟨h1, by simpa using hpc⟩))
      · exact List.mem_append.mpr (Or.inr (by simp [h1]))

/-- Witness for `participants_min_two`. -/
theorem participants_min_two_witness :
    2 ≤ ({ id := 1, title := "T".data, participants := [1, 2],
           createdBy := 1 } : Conversation).participants.length ∧
    saveConversation []
        (({ id := 1, title := "T".data, participants := [1, 2],
            createdBy := 1 } : Conversation).removeParticipant 2) =
      Except.error "Conversation must have at least 2 participants" ∧
    ((2 : Nat) ∈ ({ id := 1, title := "T".data, participants := [2, 1], createdBy := 1,
                    isGroup := false } : Conversation).participants ↔
      (2 : Nat) ∈ [1, 2] ∨ (2 : Nat) = 1) :=
  ⟨participants_min_two.1 []
    [{ id := 1, title := "T".data, participants := [1, 2], createdBy := 1 }]
    { id := 1, title := "T".data, participants := [1, 2], createdBy := 1 }
    { id := 1, title := "T".data, participants := [1, 2], createdBy := 1 } rfl,
   participants_min_two.2.2.1 []
    { id := 1, title := "T".data, participants := [1, 2], createdBy := 1 } 2
    (by decide) (by decide) (by decide),
   participants_min_two.2.2.2 []
    [{ id := 1, title := "T".data, participants := [2, 1], createdBy := 1, isGroup := false }]
    { id := 1, title := "T".data, participants := [1, 2], createdBy := 1 }
    { id := 1, title := "T".data, participants := [2, 1], createdBy := 1, isGroup := false }
    rfl 2⟩

/-- C5 counterexample: the create-conversation route accepts a
caller-supplied `isGroup: true` and persists it on a conversation with
exactly 2 participants, so the stored flag differs from
`participants.size > 2`. -/
theorem isGroup_two_participant_counterexample :
    (createConversationRoute
        { users := [{ id := 1, companyId := 1 }, { id := 2, companyId := 1 }],
          convs := [], msgs := [] }
        { id := 1, companyId := 1 } "Pair".data [2] none true 7).map
      (fun p => (p.2.isGroup, p.2.participants.length)) = Except.ok (true, 2) ∧
    ¬ (true = decide (2 < 2)) := by
  exact ⟨rfl, by decide⟩

/-- C5 (amended): after every successful save, `participants.size > 2`
forces `isGroup = true`, and after any `removeParticipant` save the flag
equals `participants.size > 2` exactly; the full biconditional after
every mutation fails only because creation (and field update) can persist
a caller-supplied `isGroup = true` on a 2-participant conversation. -/
theorem isGroup_flag_spec :
    (∀ (convs convs1 : List Conversation) (c c1 : Conversation),
      saveConversation convs c = Except.ok (convs1, c1) →
      2 < c1.participants.length → c1.isGroup = true) ∧
    (∀ (convs convs1 : List Conversation) (c c1 : Conversation) (u : Nat),
      saveConversation convs (c.removeParticipant u) = Except.ok (convs1, c1) →
      c1.isGroup = decide (2 < c1.participants.length)) := by
  constructor
  · intro convs convs1 c c1 h hgt
    obtain ⟨hps, -⟩ := saveConversation_ok_inv convs c convs1 c1 h
    obtain ⟨hparts, -, -, -, -, -, -, -, hig⟩ := conversationPreSave_ok_inv c c1 hps
    rw [hparts] at hgt
    rw [hig, if_pos hgt]
  · intro convs convs1 c c1 u h
    obtain ⟨hps, -⟩ := saveConversation_ok_inv convs (c.removeParticipant u) convs1 c1 h
    obtain ⟨hparts, -, -, -, -, -, -, -, hig⟩ :=
      conversationPreSave_ok_inv (c.removeParticipant u) c1 hps
    by_cases hgt : 2 < (participantsWithCreator (c.removeParticipant u)).length
    · rw [hig, if_pos hgt, hparts]
      simp [hgt]
    · rw [hig, if_neg hgt, hparts]
      have hd : decide (2 < (participantsWithCreator (c.removeParticipant u)).length) = false := by
        simp [hgt]
      rw [hd]
      have hle : ((c.removeParticipant u).participants).length ≤
          (participantsWithCreator (c.removeParticipant u)).length := by
        rw [participantsWithCreator]
        split
        · exact le_rfl
        · simp
      have hparts0 : (c.removeParticipant u).participants =
          c.participants.filter fun pid => decide (¬ pid = u) := by
        rw [removeParticipant_eq]
        split <;> rfl
      have hfle : (c.participants.filter fun pid => decide (¬ pid = u)).length ≤ 2 := by
        rw [hparts0] at hle
        omega
      rw [removeParticipant_eq, if_pos hfle]

/-- Witness for `isGroup_flag_spec`. -/
theorem isGroup_flag_spec_witness :
    ({ id := 1, title := "G".data, participants := [1, 2, 3], createdBy := 1,
       isGroup := true } : Conversation).isGroup = true ∧
    ({ id := 1, title := "T".data, participants := [2, 1], createdBy := 1,
       isGroup := false } : Conversation).isGroup =
      decide (2 < ({ id := 1, title := "T".data, participants := [2, 1], createdBy := 1,
                     isGroup := false } : Conversation).participants.length) :=
  ⟨isGroup_flag_spec.1 []
      [{ id := 1, title := "G".data, participants := [1, 2, 3], createdBy := 1,
         isGroup := true }]
      { id := 1, title := "G".data, participants := [1, 2, 3], createdBy := 1,
        isGroup := false }
      { id := 1, title := "G".data, participants := [1, 2, 3], createdBy := 1,
        isGroup := true }
      rfl (by decide),
   isGroup_flag_spec.2 []
      [{ id := 1, title := "T".data, participants := [2, 1], createdBy := 1,
         isGroup := false }]
      { id := 1, title := "T".data, participants := [1, 2], createdBy := 1 }
      { id := 1, title := "T".data, participants := [2, 1], createdBy := 1,
        isGroup := false }
      1 rfl⟩

/-- The message document produced by persisting a loaded message. -/
theorem saveLoadedMessage_snd (w : World) (prevText : List Char) (m : Message) (now : Nat) :
    (saveLoadedMessage w prevText m now).2 =
      (if prevText = m.text then messagePreSave m
       else messagePreSave { m with isEdited := true, editedAt := some now }) := by
  rw [saveLoadedMessage]

/-- Persisting a loaded message never changes its text. -/
theorem saveLoadedMessage_snd_text (w : World) (prevText : List Char) (m : Message)
    (now : Nat) : (saveLoadedMessage w prevText m now).2.text = m.text := by
  rw [saveLoadedMessage_snd]
  split <;> rfl

/-- Persisting a loaded message whose text was changed marks it edited. -/
theorem saveLoadedMessage_snd_edited (w : World) (prevText : List Char) (m : Message)
    (now : Nat) (h : ¬ prevText = m.text) :
    (saveLoadedMessage w prevText m now).2.isEdited = true ∧
    (saveLoadedMessage w prevText m now).2.editedAt = some now := by
  rw [saveLoadedMessage_snd, if_neg h]
  exact ⟨rfl, rfl⟩

/-- Fields of a tombstoned message. -/
theorem softDelete_fields (m : Message) (d now : Nat) :
    (m.softDelete d now).text = tombstoneText ∧
    (m.softDelete d now).attachments = [] ∧
    (m.softDelete d now).id = m.id ∧
    (m.softDelete d now).createdAt = m.createdAt ∧
    (m.softDelete d now).isDeleted = true := by
  rw [Message.softDelete]
  dsimp only
  split <;> exact ⟨rfl, rfl, rfl, rfl, rfl⟩

/-- C7 counterexample: the chat edit route accepts an edit of an already
soft-deleted message (no `InvalidStateError`), and an edit that submits
the unchanged text succeeds without setting `isEdited`. -/
theorem edit_deleted_message_counterexample :
    (chatEditMessageRoute
        { users := [], convs := [], msgs := [{ id := 1, text := tombstoneText, senderId := 1,
                                               conversationId := 1, isDeleted := true }] }
        1 1 "x".data 9).map (fun p => (p.2.text, p.2.isDeleted)) =
      Except.ok ("x".data, true) ∧
    (findMessage [{ id := 1, text := tombstoneText, senderId := 1, conversationId := 1,
                    isDeleted := true }] 1).map (fun m => m.isDeleted) = some true ∧
    (updateMessageRoute
        { users := [], convs := [], msgs := [{ id := 2, text := "hi".data, senderId := 1,
                                               conversationId := 1 }] }
        1 2 "hi".data 9).map (fun p => (p.2.isEdited, p.2.editedAt)) =
      Except.ok (false, none) := by
  exact ⟨rfl, rfl, rfl⟩

/-- C7 (amended): on both edit routes a non-sender is refused with 403
`ACCESS_DENIED`; the `/api/messages/:id` route refuses an edit of a
soft-deleted message with 400 `MESSAGE_DELETED`, while the
`/api/chat/messages/:id` route performs no such check and edits even a
soft-deleted message; a successful edit stores the new text, sets
`isEdited = true` and `editedAt = now` when the new text differs from the
stored one (the chat route always stamps `editedAt`). -/
theorem edit_message_spec :
    (∀ (w : World) (caller msgId : Nat) (newText : List Char) (now : Nat) (m : Message),
      findMessage w.msgs msgId = some m → ¬ m.senderId = caller →
      1 ≤ newText.length → newText.length ≤ 5000 →
      updateMessageRoute w caller msgId newText now =
        Except.error { status := 403, error := "ACCESS_DENIED" } ∧
      chatEditMessageRoute w caller msgId newText now =
        Except.error { status := 403, error := "ACCESS_DENIED" }) ∧
    (∀ (w : World) (caller msgId : Nat) (newText : List Char) (now : Nat) (m : Message),
      findMessage w.msgs msgId = some m → m.senderId = caller → m.isDeleted = true →
      updateMessageRoute w caller msgId newText now =
        Except.error { status := 400, error := "MESSAGE_DELETED" }) ∧
    (∀ (w : World) (caller msgId : Nat) (newText : List Char) (now : Nat) (m : Message),
      findMessage w.msgs msgId = some m → m.senderId = caller → m.isDeleted = false →
      updateMessageRoute w caller msgId newText now =
        Except.ok (saveLoadedMessage w m.text { m with text := newText } now) ∧
      (saveLoadedMessage w m.text { m with text := newText } now).2.text = newText ∧
      (¬ newText = m.text →
        (saveLoadedMessage w m.text { m with text := newText } now).2.isEdited = true ∧
        (saveLoadedMessage w m.text { m with text := newText } now).2.editedAt = some now)) ∧
    (∀ (w : World) (caller msgId : Nat) (newText : List Char) (now : Nat) (m : Message),
      1 ≤ newText.length → newText.length ≤ 5000 →
      findMessage w.msgs msgId = some m → m.senderId = caller →
      chatEditMessageRoute w caller msgId newText now =
        Except.ok (saveLoadedMessage w m.text
          { m with text := newText, editedAt := some now } now) ∧
      (saveLoadedMessage w m.text
        { m with text := newText, editedAt := some now } now).2.editedAt = some now ∧
      (saveLoadedMessage w m.text
        { m with text := newText, editedAt := some now } now).2.text = newText) := by
  have hguard : ∀ newText : List Char, 1 ≤ newText.length → newText.length ≤ 5000 →
      ¬ (newText.length < 1 ∨ newText.length > 5000) := by
    intro t h1 h2
    omega
  refine ⟨?_, ?_, ?_, ?_⟩
  · intro w caller msgId newText now m hm hs h1 h2
    constructor
    · rw [updateMessageRoute, hm]
      dsimp only
      rw [if_pos hs]
    · rw [chatEditMessageRoute, if_neg (hguard newText h1 h2), hm]
      dsimp only
      rw [if_pos hs]
  · intro w caller msgId newText now m hm hs hd
    rw [updateMessageRoute, hm]
    dsimp only
    rw [if_neg (not_not_intro hs), if_pos hd]
  · intro w caller msgId newText now m hm hs hd
    refine ⟨?_, ?_, ?_⟩
    · rw [updateMessageRoute, hm]
      dsimp only
      rw [if_neg (not_not_intro hs), if_neg (by rw [hd]; exact Bool.false_ne_true)]
    · rw [saveLoadedMessage_snd_text]
    · intro hne
      exact saveLoadedMessage_snd_edited w m.text { m with text := newText } now
        (fun h => hne h.symm)
  · intro w caller msgId newText now m h1 h2 hm hs
    refine ⟨?_, ?_, ?_⟩
    · rw [chatEditMessageRoute, if_neg (hguard newText h1 h2), hm]
      dsimp only
      rw [if_neg (not_not_intro hs)]
    · rw [saveLoadedMessage_snd]
      split <;> rfl
    · rw [saveLoadedMessage_snd]
      split <;> rfl

/-- Witness for `edit_message_spec`. -/
theorem edit_message_spec_witness :
    (updateMessageRoute
        { users := [], convs := [], msgs := [{ id := 10, text := "hello".data, senderId := 1,
                                               conversationId := 1 }] }
        2 10 "x".data 9 = Except.error { status := 403, error := "ACCESS_DENIED" } ∧
     chatEditMessageRoute
        { users := [], convs := [], msgs := [{ id := 10, text := "hello".data, senderId := 1,
                                               conversationId := 1 }] }
        2 10 "x".data 9 = Except.error { status := 403, error := "ACCESS_DENIED" }) ∧
    updateMessageRoute
        { users := [], convs := [], msgs := [{ id := 1, text := tombstoneText, senderId := 1,
                                               conversationId := 1, isDeleted := true }] }
        1 1 "x".data 9 = Except.error { status := 400, error := "MESSAGE_DELETED" } ∧
    (saveLoadedMessage
        { users := [], convs := [], msgs := [{ id := 2, text := "hi".data, senderId := 1,
                                               conversationId := 1 }] }
        "hi".data
        { ({ id := 2, text := "hi".data, senderId := 1,
             conversationId := 1 } : Message) with text := "yo".data } 9).2.text = "yo".data ∧
    (saveLoadedMessage
        { users := [], convs := [], msgs := [{ id := 1, text := tombstoneText, senderId := 1,
                                               conversationId := 1, isDeleted := true }] }
        tombstoneText
        { ({ id := 1, text := tombstoneText, senderId := 1, conversationId := 1,
             isDeleted := true } : Message) with
          text := "x".data, editedAt := some 9 } 9).2.editedAt = some 9 :=
  ⟨edit_message_spec.1
      { users := [], convs := [], msgs := [{ id := 10, text := "hello".data, senderId := 1,
                                             conversationId := 1 }] }
      2 10 "x".data 9 { id := 10, text := "hello".data, senderId := 1, conversationId := 1 }
      rfl (by decide) (by decide) (by decide),
   edit_message_spec.2.1
      { users := [], convs := [], msgs := [{ id := 1, text := tombstoneText, senderId := 1,
                                             conversationId := 1, isDeleted := true }] }
      1 1 "x".data 9
      { id := 1, text := tombstoneText, senderId := 1, conversationId := 1, isDeleted := true }
      rfl rfl rfl,
   (edit_message_spec.2.2.1
      { users := [], convs := [], msgs := [{ id := 2, text := "hi".data, senderId := 1,
                                             conversationId := 1 }] }
      1 2 "yo".data 9 { id := 2, text := "hi".data, senderId := 1, conversationId := 1 }
      rfl rfl rfl).2.1,
   (edit_message_spec.2.2.2
      { users := [], convs := [], msgs := [{ id := 1, text := tombstoneText, senderId := 1,
                                             conversationId := 1, isDeleted := true }] }
      1 1 "x".data 9
      { id := 1, text := tombstoneText, senderId := 1, conversationId := 1, isDeleted := true }
      (by decide) (by decide) rfl rfl).2.1⟩

/-- C8 counterexample: the chat delete route physically removes the
message document (`findByIdAndDelete`): after a successful call the
message is gone from the store, contradicting "the record is never
physically removed". -/
theorem chat_delete_removes_record_counterexample :
    (chatDeleteMessageRoute
        { users := [], convs := [], msgs := [{ id := 1, text := "hello".data, senderId := 1,
                                               conversationId := 1, createdAt := 42 }] }
        1 1).map (fun w1 => findMessage w1.msgs 1) = Except.ok none ∧
    (chatDeleteMessageRoute
        { users := [], convs := [], msgs := [{ id := 1, text := "hello".data, senderId := 1,
                                               conversationId := 1, createdAt := 42 }] }
        1 1).map (fun w1 => w1.msgs.length) = Except.ok 0 := by
  exact ⟨rfl, rfl⟩

/-- C8 (amended): the `/api/messages/:id` delete path tombstones — the
stored document keeps its id and `createdAt`, its text becomes the
tombstone marker, its attachments are cleared, it remains queryable by id
and the store keeps its size; the `/api/chat/messages/:id` path instead
permanently removes the document. -/
theorem delete_message_tombstones :
    ∀ (w : World) (caller : User) (msgId now : Nat) (m : Message),
      findMessage w.msgs msgId = some m →
      (m.senderId = caller.id ∨ caller.role = Role.admin) →
      deleteMessageRoute w caller msgId now =
        Except.ok { w with msgs := replaceMessage w.msgs (m.softDelete caller.id now) } ∧
      findMessage (replaceMessage w.msgs (m.softDelete caller.id now)) msgId =
        some (m.softDelete caller.id now) ∧
      (m.softDelete caller.id now).text = tombstoneText ∧
      (m.softDelete caller.id now).attachments = [] ∧
      (m.softDelete caller.id now).id = m.id ∧
      (m.softDelete caller.id now).createdAt = m.createdAt ∧
      (m.softDelete caller.id now).isDeleted = true ∧
      (replaceMessage w.msgs (m.softDelete caller.id now)).length = w.msgs.length := by
  intro w caller msgId now m hm hperm
  obtain ⟨htext, hatt, hid, hcr, hdel⟩ := softDelete_fields m caller.id now
  have hmid : m.id = msgId := by
    simpa using List.find?_some hm
  refine ⟨?_, ?_, htext, hatt, hid, hcr, hdel, ?_⟩
  · rw [deleteMessageRoute, hm]
    dsimp only
    rw [if_pos hperm]
  · exact findMessage_replaceMessage w.msgs msgId m (m.softDelete caller.id now) hm
      (by rw [hid, hmid])
  · rw [replaceMessage, List.length_map]

/-- Witness for `delete_message_tombstones`. -/
theorem delete_message_tombstones_witness :
    deleteMessageRoute
        { users := [], convs := [], msgs := [{ id := 1, text := "hello".data, senderId := 1,
                                               conversationId := 1, createdAt := 42 }] }
        { id := 1, companyId := 1 } 1 50 =
      Except.ok
        { users := [], convs := [],
          msgs := replaceMessage
            [{ id := 1, text := "hello".data, senderId := 1, conversationId := 1,
               createdAt := 42 }]
            (({ id := 1, text := "hello".data, senderId := 1, conversationId := 1,
                createdAt := 42 } : Message).softDelete 1 50) } ∧
    (({ id := 1, text := "hello".data, senderId := 1, conversationId := 1,
        createdAt := 42 } : Message).softDelete 1 50).text = tombstoneText ∧
    (({ id := 1, text := "hello".data, senderId := 1, conversationId := 1,
        createdAt := 42 } : Message).softDelete 1 50).createdAt = 42 :=
  ⟨(delete_message_tombstones
      { users := [], convs := [], msgs := [{ id := 1, text := "hello".data, senderId := 1,
                                             conversationId := 1, createdAt := 42 }] }
      { id := 1, companyId := 1 } 1 50
      { id := 1, text := "hello".data, senderId := 1, conversationId := 1, createdAt := 42 }
      rfl (Or.inl rfl)).1,
   (delete_message_tombstones
      { users := [], convs := [], msgs := [{ id := 1, text := "hello".data, senderId := 1,
                                             conversationId := 1, createdAt := 42 }] }
      { id := 1, companyId := 1 } 1 50
      { id := 1, text := "hello".data, senderId := 1, conversationId := 1, createdAt := 42 }
      rfl (Or.inl rfl)).2.2.1,
   (delete_message_tombstones
      { users := [], convs := [], msgs := [{ id := 1, text := "hello".data, senderId := 1,
                                             conversationId := 1, createdAt := 42 }] }
      { id := 1, companyId := 1 } 1 50
      { id := 1, text := "hello".data, senderId := 1, conversationId := 1, createdAt := 42 }
      rfl (Or.inl rfl)).2.2.2.2.2.1⟩

/-- The conversation-cache refresh keeps every stored id. -/
theorem mem_updateConversationLastMessage (convs : List Conversation)
    (conversationId : Nat) (messageText : List Char) (timestamp : Option Nat) (now : Nat)
    (c : Conversation) (h : c ∈ convs) :
    ∃ x ∈ Message.updateConversationLastMessage convs conversationId messageText
        timestamp now, x.id = c.id := by
  rw [Message.updateConversationLastMessage]
  refine ⟨_, List.mem_map_of_mem _ h, ?_⟩
  split <;> rfl

/-- C9: appending a non-system message with non-empty text sets the
conversation's cached `lastMessage` to the text itself when its length is
at most 200, and to the first 197 characters followed by "..." (a
200-character preview) when longer; `lastMessageAt` becomes the message's
creation time. -/
theorem send_message_last_message_preview :
    ∀ (w : World) (callerId convId : Nat) (text : List Char) (mt : MessageType)
      (newMsgId now : Nat) (conversation : Conversation),
      findConv w.convs convId = some conversation →
      conversation.hasParticipant callerId = true →
      conversation.createdBy ∈ conversation.participants →
      2 ≤ conversation.participants.length →
      ¬ text = [] → ¬ mt = MessageType.system →
      ∃ w1 message, sendMessageRoute w callerId convId text mt none newMsgId now =
          Except.ok (w1, message) ∧
        message.createdAt = now ∧
        ∃ c1, findConv w1.convs convId = some c1 ∧
          c1.lastMessageAt = some message.createdAt ∧
          (text.length ≤ 200 → c1.lastMessage = some text) ∧
          (200 < text.length →
            c1.lastMessage = some (text.take 197 ++ "...".data) ∧
            (text.take 197 ++ "...".data).length = 200) := by
  intro w callerId convId text mt newMsgId now conversation hfind hpart hcreator hplen
    htext hmt
  have hcid : conversation.id = convId := by
    simpa using List.find?_some hfind
  have hcmem : conversation ∈ w.convs := List.mem_of_find?_eq_some hfind
  set msg0 : Message :=
    messagePreSave { id := newMsgId, text := text, senderId := callerId,
                     conversationId := convId, messageType := mt, replyTo := none,
                     createdAt := now } with hmsg0
  set convs1 : List Conversation :=
    Message.updateConversationLastMessage w.convs convId msg0.text
      (some msg0.createdAt) now with hconvs1
  set cu : Conversation :=
    conversation.updateLastMessage (if text = [] then "[File attachment]".data else text)
      (some msg0.createdAt) now with hcu
  have hcu_parts : cu.participants = conversation.participants := rfl
  have hcu_cb : cu.createdBy = conversation.createdBy := rfl
  have hcu_id : cu.id = conversation.id := rfl
  have hmemc : cu.createdBy ∈ cu.participants := by
    rw [hcu_parts, hcu_cb]
    exact hcreator
  have hpwc : participantsWithCreator cu = cu.participants := by
    rw [participantsWithCreator, if_pos hmemc]
  have hlen : 2 ≤ (participantsWithCreator cu).length := by
    rw [hpwc, hcu_parts]
    exact hplen
  have hsave := conversationPreSave_ok cu hlen
  set c1 : Conversation :=
    (if 2 < (participantsWithCreator cu).length then
      { cu with participants := participantsWithCreator cu, isGroup := true }
    else { cu with participants := participantsWithCreator cu }) with hc1
  have hc1_lm : c1.lastMessage = cu.lastMessage := by
    rw [hc1]
    split <;> rfl
  have hc1_lma : c1.lastMessageAt = cu.lastMessageAt := by
    rw [hc1]
    split <;> rfl
  have hc1_id : c1.id = cu.id := by
    rw [hc1]
    split <;> rfl
  refine ⟨{ w with convs := upsertConversation convs1 c1, msgs := w.msgs ++ [msg0] },
    msg0, ?_, rfl, c1, ?_, ?_, ?_, ?_⟩
  · rw [sendMessageRoute, hfind]
    dsimp only
    rw [if_neg (not_not_intro hpart)]
    rw [if_neg (by simp)]
    rw [if_pos (⟨rfl, hmt⟩ :
      msg0.isDeleted = false ∧ ¬ msg0.messageType = MessageType.system)]
    rw [saveConversation, hsave]
  · obtain ⟨x, hxmem, hxid⟩ := mem_updateConversationLastMessage w.convs convId msg0.text
      (some msg0.createdAt) now conversation hcmem
    have hfound := findConv_upsert_of_mem convs1 c1
      ⟨x, hxmem, by rw [hxid, hc1_id, hcu_id]⟩
    rw [hc1_id, hcu_id, hcid] at hfound
    exact hfound
  · rw [hc1_lma]
    rfl
  · intro hle
    rw [hc1_lm, hcu, Conversation.updateLastMessage]
    dsimp only
    rw [if_neg htext, if_neg (Nat.not_lt.mpr hle)]
  · intro hgt
    constructor
    · rw [hc1_lm, hcu, Conversation.updateLastMessage]
      dsimp only
      rw [if_neg htext, if_pos hgt]
    · have h197 : (text.take 197).length = 197 := by
        rw [List.length_take]
        omega
      have hdots : ("...".data).length = 3 := by decide
      rw [List.length_append, h197, hdots]

/-- Witness for `send_message_last_message_preview`, at a 5-character and
a 250-character message. -/
theorem send_message_last_message_preview_witness :
    (∃ w1 message, sendMessageRoute
        { users := [], convs := [{ id := 1, title := "Chat".data, participants := [1, 2],
                                   createdBy := 1 }], msgs := [] }
        1 1 "hello".data MessageType.text none 5 9 = Except.ok (w1, message) ∧
      message.createdAt = 9 ∧
      ∃ c1, findConv w1.convs 1 = some c1 ∧
        c1.lastMessageAt = some message.createdAt ∧
        ("hello".data.length ≤ 200 → c1.lastMessage = some "hello".data) ∧
        (200 < "hello".data.length →
          c1.lastMessage = some ("hello".data.take 197 ++ "...".data) ∧
          ("hello".data.take 197 ++ "...".data).length = 200)) ∧
    (∃ w1 message, sendMessageRoute
        { users := [], convs := [{ id := 1, title := "Chat".data, participants := [1, 2],
                                   createdBy := 1 }], msgs := [] }
        1 1 (List.replicate 250 'a') MessageType.text none 5 9 = Except.ok (w1, message) ∧
      message.createdAt = 9 ∧
      ∃ c1, findConv w1.convs 1 = some c1 ∧
        c1.lastMessageAt = some message.createdAt ∧
        ((List.replicate 250 'a').length ≤ 200 →
          c1.lastMessage = some (List.replicate 250 'a')) ∧
        (200 < (List.replicate 250 'a').length →
          c1.lastMessage = some ((List.replicate 250 'a').take 197 ++ "...".data) ∧
          ((List.replicate 250 'a').take 197 ++ "...".data).length = 200)) :=
  ⟨send_message_last_message_preview
      { users := [], convs := [{ id := 1, title := "Chat".data, participants := [1, 2],
                                 createdBy := 1 }], msgs := [] }
      1 1 "hello".data MessageType.text 5 9
      { id := 1, title := "Chat".data, participants := [1, 2], createdBy := 1 }
      rfl rfl (by decide) (by decide) (by decide) (by decide),
   send_message_last_message_preview
      { users := [], convs := [{ id := 1, title := "Chat".data, participants := [1, 2],
                                 createdBy := 1 }], msgs := [] }
      1 1 (List.replicate 250 'a') MessageType.text 5 9
      { id := 1, title := "Chat".data, participants := [1, 2], createdBy := 1 }
      rfl rfl (by decide) (by decide) (by decide) (by decide)⟩

/-- One reaction API call against a message. -/
inductive ReactionOp
  | add (userId : Nat) (emoji : String)
  | remove (userId : Nat) (emoji : String)
deriving Repr, DecidableEq

/-- Dispatch of one reaction call to the instance methods. -/
def applyReactionOp (m : Message) : ReactionOp → Message
  | ReactionOp.add u e => m.addReaction u e
  | ReactionOp.remove u e => m.removeReaction u e

/-- A sequence of add/remove reaction calls. -/
def applyReactionOps (m : Message) (ops : List ReactionOp) : Message :=
  ops.foldl applyReactionOp m

/-- Well-formedness of a stored reaction list: denormalized counts match,
no user is recorded twice for an emoji, no empty entry survives. -/
def reactionsWF (rs : List Reaction) : Prop :=
  ∀ r ∈ rs, r.count = r.users.length ∧ r.users.Nodup ∧ ¬ r.users = []

/-- Synchronizing counts is the identity when counts already match. -/
theorem syncReactionCounts_eq_self (rs : List Reaction)
    (h : ∀ r ∈ rs, r.count = r.users.length) : syncReactionCounts rs = rs := by
  induction rs with
  | nil => rfl
  | cons r rs ih =>
    have hr := h r (List.mem_cons_self r rs)
    have hrs := ih fun x hx => h x (List.mem_cons_of_mem r hx)
    rw [syncReactionCounts, List.map_cons]
    rw [syncReactionCounts] at hrs
    rw [hrs]
    have : { r with count := r.users.length } = r := by
      cases r
      simp only [Reaction.mk.injEq, and_true, true_and]
      exact hr.symm
    rw [this]

/-- `messagePreSave` is the identity on a message with synchronized
counts. -/
theorem messagePreSave_eq_self (m : Message)
    (h : ∀ r ∈ m.reactions, r.count = r.users.length) : messagePreSave m = m := by
  rw [messagePreSave, syncReactionCounts_eq_self m.reactions h]

/-- `updateFirstReaction` is the identity when no entry matches. -/
theorem updateFirstReaction_of_none (rs : List Reaction) (e : String)
    (f : Reaction → Reaction) (h : ∀ r ∈ rs, ¬ r.emoji = e) :
    updateFirstReaction rs e f = rs := by
  induction rs with
  | nil => rfl
  | cons a rs ih =>
    rw [updateFirstReaction, if_neg (h a (List.mem_cons_self a rs))]
    rw [ih fun x hx => h x (List.mem_cons_of_mem a hx)]

/-- `updateFirstReaction` past a prefix with no matching entry. -/
theorem updateFirstReaction_append (rs1 rs2 : List Reaction) (e : String)
    (f : Reaction → Reaction) (h : ∀ r ∈ rs1, ¬ r.emoji = e) :
    updateFirstReaction (rs1 ++ rs2) e f = rs1 ++ updateFirstReaction rs2 e f := by
  induction rs1 with
  | nil => rfl
  | cons a rs1 ih =>
    rw [List.cons_append, updateFirstReaction, if_neg (h a (List.mem_cons_self a rs1))]
    rw [ih fun x hx => h x (List.mem_cons_of_mem a hx), List.cons_append]

/-- Decomposition of `updateFirstReaction` at the first matching entry. -/
theorem updateFirstReaction_of_some (rs : List Reaction) (e : String)
    (f : Reaction → Reaction) (r : Reaction)
    (h : rs.find? (fun r2 => decide (r2.emoji = e)) = some r) :
    ∃ l1 l2, rs = l1 ++ r :: l2 ∧ (∀ x ∈ l1, ¬ x.emoji = e) ∧ r.emoji = e ∧
      updateFirstReaction rs e f = l1 ++ f r :: l2 := by
  induction rs with
  | nil => simp [List.find?] at h
  | cons a rs ih =>
    by_cases hae : a.emoji = e
    · have ha : a = r := by
        have := List.find?_cons_of_pos (p := fun r2 => decide (r2.emoji = e)) (l := rs)
          (decide_eq_true hae)
        rw [this] at h
        injection h
      subst ha
      refine ⟨[], rs, rfl, by simp, hae, ?_⟩
      rw [updateFirstReaction, if_pos hae]
      rfl
    · have hrec : rs.find? (fun r2 => decide (r2.emoji = e)) = some r := by
        have := List.find?_cons_of_neg (p := fun r2 => decide (r2.emoji = e)) (l := rs)
          (by simpa using hae)
        rw [this] at h
        exact h
      obtain ⟨l1, l2, hrs, hl1, hre, hupd⟩ := ih hrec
      refine ⟨a :: l1, l2, by rw [hrs, List.cons_append], ?_, hre, ?_⟩
      · intro x hx
        rcases List.mem_cons.mp hx with hxa | hx1
        · rw [hxa]
          exact hae
        · exact hl1 x hx1
      · rw [updateFirstReaction, if_neg hae, hupd, List.cons_append]

/-- User-set well-formedness of a stored reaction list: no user recorded
twice per entry and no empty entry. -/
def usersOK (rs : List Reaction) : Prop :=
  ∀ r ∈ rs, r.users.Nodup ∧ ¬ r.users = []

/-- Count synchronization keeps the user sets. -/
theorem usersOK_sync (rs : List Reaction) (h : usersOK rs) :
    usersOK (syncReactionCounts rs) := by
  intro x hx
  obtain ⟨y, hy, rfl⟩ := List.mem_map.mp hx
  exact h y hy

/-- After count synchronization every count matches its user set. -/
theorem countsOK_sync (rs : List Reaction) :
    ∀ r ∈ syncReactionCounts rs, r.count = r.users.length := by
  intro x hx
  obtain ⟨y, hy, rfl⟩ := List.mem_map.mp hx
  rfl

/-- The reaction list produced by `addReaction`. -/
theorem addReaction_reactions_eq (m : Message) (u : Nat) (e : String) :
    (m.addReaction u e).reactions =
      syncReactionCounts (updateFirstReaction
        (if (m.reactions.any fun r => decide (r.emoji = e)) = true then m.reactions
         else m.reactions ++ [{ emoji := e, users := [], count := 0 }]) e
        (fun r => if u ∈ r.users then r
                  else { r with users := r.users ++ [u],
                                count := (r.users ++ [u]).length })) := rfl

/-- `addReaction` preserves user-set well-formedness. -/
theorem usersOK_addReaction (m : Message) (u : Nat) (e : String)
    (h : usersOK m.reactions) : usersOK (m.addReaction u e).reactions := by
  rw [addReaction_reactions_eq]
  apply usersOK_sync
  by_cases hany : (m.reactions.any fun r => decide (r.emoji = e)) = true
  · rw [if_pos hany]
    obtain ⟨r, hrmem, hrp⟩ := List.any_eq_true.mp hany
    cases hf0 : m.reactions.find? fun r2 => decide (r2.emoji = e) with
    | none => exact absurd hrp (List.find?_eq_none.mp hf0 r hrmem)
    | some r0 =>
    obtain ⟨l1, l2, hrs, hl1, hre, hupd⟩ := updateFirstReaction_of_some _ _ _ _ hf0
    rw [hupd]
    intro x hx
    rcases List.mem_append.mp hx with hx1 | hx2
    · exact h x (by rw [hrs]; exact List.mem_append.mpr (Or.inl hx1))
    · rcases List.mem_cons.mp hx2 with hxf | hx3
      · have hr0 := h r0
          (by rw [hrs]; exact List.mem_append.mpr (Or.inr (List.mem_cons_self _ _)))
        rw [hxf]
        by_cases hu : u ∈ r0.users
        · rw [if_pos hu]
          exact hr0
        · rw [if_neg hu]
          refine ⟨?_, by simp⟩
          have hperm : (r0.users ++ [u]).Perm (u :: r0.users) :=
            List.perm_append_singleton u r0.users
          exact (hperm.nodup_iff).mpr (List.nodup_cons.mpr ⟨hu, hr0.1⟩)
      · exact h x
          (by rw [hrs]; exact List.mem_append.mpr (Or.inr (List.mem_cons_of_mem _ hx3)))
  · rw [if_neg hany]
    have hnone : ∀ r ∈ m.reactions, ¬ r.emoji = e := by
      intro r hr hre
      exact hany (List.any_eq_true.mpr ⟨r, hr, decide_eq_true hre⟩)
    rw [updateFirstReaction_append _ _ _ _ hnone]
    intro x hx
    rcases List.mem_append.mp hx with hx1 | hx2
    · exact h x hx1
    · have hone : updateFirstReaction [{ emoji := e, users := [], count := 0 }] e
          (fun r => if u ∈ r.users then r
                    else { r with users := r.users ++ [u],
                                  count := (r.users ++ [u]).length }) =
          [{ emoji := e, users := [u], count := 1 }] := by
        simp [updateFirstReaction]
      rw [hone] at hx2
      rw [List.mem_singleton.mp hx2]
      exact ⟨by simp, by simp⟩

/-- `removeReaction` preserves user-set well-formedness. -/
theorem usersOK_removeReaction (m : Message) (u : Nat) (e : String)
    (h : usersOK m.reactions) : usersOK (m.removeReaction u e).reactions := by
  rw [Message.removeReaction]
  cases hf : m.reactions.find? (fun r => decide (r.emoji = e)) with
  | none => exact usersOK_sync _ h
  | some r =>
    dsimp only
    apply usersOK_sync
    obtain ⟨l1, l2, hrs, hl1, hre, hupd⟩ := updateFirstReaction_of_some m.reactions e
      (fun rr => { rr with users := rr.users.filter (fun uid => decide (¬ uid = u)),
                           count := (rr.users.filter
                             (fun uid => decide (¬ uid = u))).length }) r hf
    rw [hupd]
    intro x hx
    dsimp only at hx
    split at hx
    · have hxmem := List.mem_of_mem_filter hx
      have hxe : ¬ x.emoji = e := by simpa using List.of_mem_filter hx
      rcases List.mem_append.mp hxmem with hx1 | hx2
      · exact h x (by rw [hrs]; exact List.mem_append.mpr (Or.inl hx1))
      · rcases List.mem_cons.mp hx2 with hxf | hx3
        · exact absurd (by rw [hxf]; exact hre) hxe
        · exact h x
            (by rw [hrs]; exact List.mem_append.mpr (Or.inr (List.mem_cons_of_mem _ hx3)))
    · rename_i h0
      rcases List.mem_append.mp hx with hx1 | hx2
      · exact h x (by rw [hrs]; exact List.mem_append.mpr (Or.inl hx1))
      · rcases List.mem_cons.mp hx2 with hxf | hx3
        · rw [hxf]
          have hr := h r
            (by rw [hrs]; exact List.mem_append.mpr (Or.inr (List.mem_cons_self _ _)))
          refine ⟨List.Nodup.filter _ hr.1, ?_⟩
          intro hnil
          have hnil2 : (r.users.filter fun uid => decide (¬ uid = u)) = [] := hnil
          exact h0 (by rw [hnil2]; rfl)
        · exact h x
            (by rw [hrs]; exact List.mem_append.mpr (Or.inr (List.mem_cons_of_mem _ hx3)))

/-- Every count matches its user set after `addReaction`. -/
theorem countsOK_addReaction (m : Message) (u : Nat) (e : String) :
    ∀ r ∈ (m.addReaction u e).reactions, r.count = r.users.length := by
  rw [addReaction_reactions_eq]
  exact countsOK_sync _

/-- Every count matches its user set after `removeReaction`. -/
theorem countsOK_removeReaction (m : Message) (u : Nat) (e : String) :
    ∀ r ∈ (m.removeReaction u e).reactions, r.count = r.users.length := by
  rw [Message.removeReaction]
  cases hf : m.reactions.find? (fun r => decide (r.emoji = e)) with
  | none => exact countsOK_sync _
  | some r => exact countsOK_sync _

/-- User-set well-formedness is preserved by any sequence of reaction
calls. -/
theorem usersOK_applyReactionOps (ops : List ReactionOp) :
    ∀ (m : Message), usersOK m.reactions → usersOK (applyReactionOps m ops).reactions := by
  induction ops with
  | nil => exact fun m h => h
  | cons op ops ih =>
    intro m h
    rw [applyReactionOps, List.foldl_cons]
    cases op with
    | add u e => exact ih _ (usersOK_addReaction m u e h)
    | remove u e => exact ih _ (usersOK_removeReaction m u e h)

/-- Count synchronization is preserved by any sequence of reaction calls. -/
theorem countsOK_applyReactionOps (ops : List ReactionOp) :
    ∀ (m : Message), (∀ r ∈ m.reactions, r.count = r.users.length) →
      ∀ r ∈ (applyReactionOps m ops).reactions, r.count = r.users.length := by
  induction ops with
  | nil => exact fun m h => h
  | cons op ops ih =>
    intro m h
    rw [applyReactionOps, List.foldl_cons]
    cases op with
    | add u e => exact ih _ (countsOK_addReaction m u e)
    | remove u e => exact ih _ (countsOK_removeReaction m u e)

/-- Adding a reaction the user already holds is a no-op. -/
theorem addReaction_of_mem_noop (m : Message) (u : Nat) (e : String) (r : Reaction)
    (hc : ∀ rr ∈ m.reactions, rr.count = rr.users.length)
    (hf : m.reactions.find? (fun rr => decide (rr.emoji = e)) = some r)
    (hu : u ∈ r.users) : m.addReaction u e = m := by
  have hp := List.find?_some hf
  have hany : (m.reactions.any fun rr => decide (rr.emoji = e)) = true :=
    List.any_eq_true.mpr ⟨r, List.mem_of_find?_eq_some hf, hp⟩
  rw [Message.addReaction]
  rw [if_pos hany]
  obtain ⟨l1, l2, hrs, hl1, hre, hupd⟩ := updateFirstReaction_of_some m.reactions e
    (fun rr => if u ∈ rr.users then rr
               else { rr with users := rr.users ++ [u],
                              count := (rr.users ++ [u]).length }) r hf
  rw [hupd, if_pos hu, ← hrs]
  exact messagePreSave_eq_self m hc

/-- Removing the last user of an emoji removes the entry entirely. -/
theorem removeReaction_clears_entry (m : Message) (u : Nat) (e : String) (r : Reaction)
    (hf : m.reactions.find? (fun rr => decide (rr.emoji = e)) = some r)
    (hnil : (r.users.filter fun uid => decide (¬ uid = u)) = []) :
    ∀ rr ∈ (m.removeReaction u e).reactions, ¬ rr.emoji = e := by
  intro rr hrr
  rw [Message.removeReaction, hf] at hrr
  dsimp only at hrr
  have hlen0 : (r.users.filter fun uid => decide (¬ uid = u)).length = 0 := by
    rw [hnil]
    rfl
  rw [if_pos hlen0] at hrr
  simp only [messagePreSave, syncReactionCounts] at hrr
  obtain ⟨y, hy, rfl⟩ := List.mem_map.mp hrr
  have hyp := List.of_mem_filter hy
  simpa using hyp

/-- C3: starting from an empty reaction list, after any sequence of
add/remove reaction calls every stored entry's count equals the
cardinality of its (duplicate-free, non-empty) reacting-user set; adding
an emoji the user already reacted with is a no-op, and removing the last
user of an emoji removes the entry entirely. -/
theorem reaction_count_invariant :
    ∀ (m0 : Message) (ops : List ReactionOp), m0.reactions = [] →
      (∀ r ∈ (applyReactionOps m0 ops).reactions,
        r.count = r.users.toFinset.card ∧ r.count = r.users.length ∧ ¬ r.users = []) ∧
      (∀ (u : Nat) (e : String) (r : Reaction),
        (applyReactionOps m0 ops).reactions.find?
          (fun rr => decide (rr.emoji = e)) = some r →
        u ∈ r.users →
        (applyReactionOps m0 ops).addReaction u e = applyReactionOps m0 ops) ∧
      (∀ (u : Nat) (e : String) (r : Reaction),
        (applyReactionOps m0 ops).reactions.find?
          (fun rr => decide (rr.emoji = e)) = some r →
        (r.users.filter fun uid => decide (¬ uid = u)) = [] →
        ∀ rr ∈ ((applyReactionOps m0 ops).removeReaction u e).reactions,
          ¬ rr.emoji = e) := by
  intro m0 ops h0
  have hbase : ∀ r ∈ m0.reactions, r.count = r.users.length := by
    rw [h0]
    exact fun r hr => absurd hr (List.not_mem_nil r)
  have hubase : usersOK m0.reactions := by
    rw [h0]
    exact fun r hr => absurd hr (List.not_mem_nil r)
  have hc := countsOK_applyReactionOps ops m0 hbase
  have hu := usersOK_applyReactionOps ops m0 hubase
  refine ⟨?_, ?_, ?_⟩
  · intro r hr
    obtain ⟨hnd, hne⟩ := hu r hr
    have hcr := hc r hr
    refine ⟨?_, hcr, hne⟩
    rw [hcr, List.toFinset_card_of_nodup hnd]
  · intro u e r hf hmem
    exact addReaction_of_mem_noop _ u e r hc hf hmem
  · intro u e r hf hnil
    exact removeReaction_clears_entry _ u e r hf hnil

/-- Witness for `reaction_count_invariant`: user 1 reacts "+1" twice
(duplicate), user 2 reacts "+1" and withdraws it, then user 1 withdraws
the last "+1". -/
theorem reaction_count_invariant_witness :
    (∀ r ∈ (applyReactionOps
        { id := 1, text := "hi".data, senderId := 1, conversationId := 1 }
        [ReactionOp.add 1 "+1", ReactionOp.add 1 "+1", ReactionOp.add 2 "+1",
         ReactionOp.remove 2 "+1"]).reactions,
      r.count = r.users.toFinset.card ∧ r.count = r.users.length ∧ ¬ r.users = []) ∧
    (applyReactionOps
        { id := 1, text := "hi".data, senderId := 1, conversationId := 1 }
        [ReactionOp.add 1 "+1", ReactionOp.add 1 "+1", ReactionOp.add 2 "+1",
         ReactionOp.remove 2 "+1"]).addReaction 1 "+1" =
      applyReactionOps
        { id := 1, text := "hi".data, senderId := 1, conversationId := 1 }
        [ReactionOp.add 1 "+1", ReactionOp.add 1 "+1", ReactionOp.add 2 "+1",
         ReactionOp.remove 2 "+1"] ∧
    (∀ rr ∈ ((applyReactionOps
        { id := 1, text := "hi".data, senderId := 1, conversationId := 1 }
        [ReactionOp.add 1 "+1", ReactionOp.add 1 "+1", ReactionOp.add 2 "+1",
         ReactionOp.remove 2 "+1"]).removeReaction 1 "+1").reactions,
      ¬ rr.emoji = "+1") :=
  ⟨(reaction_count_invariant
      { id := 1, text := "hi".data, senderId := 1, conversationId := 1 }
      [ReactionOp.add 1 "+1", ReactionOp.add 1 "+1", ReactionOp.add 2 "+1",
       ReactionOp.remove 2 "+1"] rfl).1,
   (reaction_count_invariant
      { id := 1, text := "hi".data, senderId := 1, conversationId := 1 }
      [ReactionOp.add 1 "+1", ReactionOp.add 1 "+1", ReactionOp.add 2 "+1",
       ReactionOp.remove 2 "+1"] rfl).2.1 1 "+1"
      { emoji := "+1", users := [1], count := 1 } rfl (by decide),
   (reaction_count_invariant
      { id := 1, text := "hi".data, senderId := 1, conversationId := 1 }
      [ReactionOp.add 1 "+1", ReactionOp.add 1 "+1", ReactionOp.add 2 "+1",
       ReactionOp.remove 2 "+1"] rfl).2.2 1 "+1"
      { emoji := "+1", users := [1], count := 1 } rfl rfl⟩
